import Mathlib

/-!
Character Store Service (`src/app.js`).

A shallow embedding of the request handlers of `src/app.js` and of the
JavaScript operations they rely on (`===`, `<`, `>`, `Number`,
`Array.prototype.find`, `findIndex`, `some`, `push`, `splice`, indexed
assignment, destructuring).

The module-level variable `characters` becomes an explicit `List Character`
that every handler receives and returns next to its HTTP response.

Modelling decisions:

* A request body is `Option JSObject`: `none` is an absent (`undefined`)
  `req.body`, `some o` is a parsed object given as its list of own properties.
  Reading a property that the object lacks yields `undefined`, as
  destructuring does.
* A path parameter enters a handler after `Number(req.params.id)`, so it is a
  `JSNumber` (which may be `NaN`).
* A JavaScript number is a rational, `NaN`, `+Infinity` or `-Infinity`; every
  finite double is a rational, and `-0` is identified with `0` (the handlers
  only use `===`, `<` and `>`, which do not tell them apart).
* An array or object is kept with its content, so two parses of the same JSON
  text are the same `JSValue`. The operator `===` compares arrays and objects
  by reference; every `===` of the handlers has a stored value on the left and
  a value of the request being handled, or a Number, on the right, and these
  are never the same reference, so `strictEq` answers `false` as soon as one
  side is an array or object.
* The conversion of strings and of arrays and objects to numbers is performed
  by the JavaScript runtime, not by this repository: it is a parameter
  (`Runtime`). Converting an array or object can throw a `TypeError`; a handler
  that throws is answered by the framework with status 500, and the statements
  after the throw are not executed.
* The handlers check neither the presence nor the type of a field, so a
  payload field ranges over every `JSValue`, `undefined` (absent) included.
-/

namespace CharacterStore

/-! ## JavaScript values -/

/-- A JavaScript Number value. -/
inductive JSNumber where
  | fin (q : ℚ)
  | nan
  | posInf
  | negInf
  deriving DecidableEq

/-- A JavaScript value as it can occur in a request body or a record field:
a primitive, an array with its items, or an object with its own properties. -/
inductive JSValue where
  | undefined
  | null
  | bool (b : Bool)
  | number (n : JSNumber)
  | string (s : String)
  | array (items : List JSValue)
  | object (props : List (String × JSValue))

mutual
/-- Equality of values is decidable (by content). -/
def JSValue.decEq : (a b : JSValue) → Decidable (a = b)
  | .undefined, .undefined => isTrue rfl
  | .null, .null => isTrue rfl
  | .bool a, .bool b =>
    if h : a = b then isTrue (congrArg JSValue.bool h)
    else isFalse (fun e => h (JSValue.bool.inj e))
  | .number a, .number b =>
    if h : a = b then isTrue (congrArg JSValue.number h)
    else isFalse (fun e => h (JSValue.number.inj e))
  | .string a, .string b =>
    if h : a = b then isTrue (congrArg JSValue.string h)
    else isFalse (fun e => h (JSValue.string.inj e))
  | .array a, .array b =>
    match JSValue.decEqList a b with
    | isTrue h => isTrue (congrArg JSValue.array h)
    | isFalse h => isFalse (fun e => h (JSValue.array.inj e))
  | .object a, .object b =>
    match JSValue.decEqProps a b with
    | isTrue h => isTrue (congrArg JSValue.object h)
    | isFalse h => isFalse (fun e => h (JSValue.object.inj e))
  | .undefined, .null | .undefined, .bool _ | .undefined, .number _ | .undefined, .string _
  | .undefined, .array _ | .undefined, .object _ => isFalse nofun
  | .null, .undefined | .null, .bool _ | .null, .number _ | .null, .string _
  | .null, .array _ | .null, .object _ => isFalse nofun
  | .bool _, .undefined | .bool _, .null | .bool _, .number _ | .bool _, .string _
  | .bool _, .array _ | .bool _, .object _ => isFalse nofun
  | .number _, .undefined | .number _, .null | .number _, .bool _ | .number _, .string _
  | .number _, .array _ | .number _, .object _ => isFalse nofun
  | .string _, .undefined | .string _, .null | .string _, .bool _ | .string _, .number _
  | .string _, .array _ | .string _, .object _ => isFalse nofun
  | .array _, .undefined | .array _, .null | .array _, .bool _ | .array _, .number _
  | .array _, .string _ | .array _, .object _ => isFalse nofun
  | .object _, .undefined | .object _, .null | .object _, .bool _ | .object _, .number _
  | .object _, .string _ | .object _, .array _ => isFalse nofun
/-- Equality of lists of values is decidable. -/
def JSValue.decEqList : (as bs : List JSValue) → Decidable (as = bs)
  | [], [] => isTrue rfl
  | [], _ :: _ => isFalse nofun
  | _ :: _, [] => isFalse nofun
  | a :: as, b :: bs =>
    match JSValue.decEq a b, JSValue.decEqList as bs with
    | isTrue h, isTrue hs => isTrue (by rw [h, hs])
    | isFalse h, _ => isFalse (fun e => h (List.cons.inj e).1)
    | _, isFalse hs => isFalse (fun e => hs (List.cons.inj e).2)
/-- Equality of property lists is decidable. -/
def JSValue.decEqProps : (as bs : List (String × JSValue)) → Decidable (as = bs)
  | [], [] => isTrue rfl
  | [], _ :: _ => isFalse nofun
  | _ :: _, [] => isFalse nofun
  | (k, a) :: as, (l, b) :: bs =>
    if hk : k = l then
      match JSValue.decEq a b, JSValue.decEqProps as bs with
      | isTrue h, isTrue hs => isTrue (by rw [hk, h, hs])
      | isFalse h, _ => isFalse (fun e => h (Prod.mk.inj (List.cons.inj e).1).2)
      | _, isFalse hs => isFalse (fun e => hs (List.cons.inj e).2)
    else isFalse (fun e => hk (Prod.mk.inj (List.cons.inj e).1).1)
end

instance : DecidableEq JSValue := JSValue.decEq

/-- Whether a value is an array or object (as opposed to a primitive). -/
def JSValue.isObject : JSValue → Bool
  | .array _ => true
  | .object _ => true
  | _ => false

/-- The conversions to Number that the runtime performs: `StringToNumber` on
strings, and `ToPrimitive` followed by `ToNumber` on arrays and objects, which
throws a `TypeError` (`none`) when neither `valueOf` nor `toString` yields a
primitive. `objectToNumber` is applied to arrays and objects only. -/
structure Runtime where
  stringToNumber : String → JSNumber
  objectToNumber : JSValue → Option JSNumber

/-- `Number::equal`: `NaN` equals nothing, itself included. -/
def JSNumber.equal : JSNumber → JSNumber → Bool
  | .fin a, .fin b => decide (a = b)
  | .posInf, .posInf => true
  | .negInf, .negInf => true
  | _, _ => false

/-- `Number::lessThan`, with the `undefined` outcome (a `NaN` operand) read as
`false`, as the `<` and `>` operators do. -/
def JSNumber.lessThan : JSNumber → JSNumber → Bool
  | .fin a, .fin b => decide (a < b)
  | .fin _, .posInf => true
  | .negInf, .fin _ => true
  | .negInf, .posInf => true
  | _, _ => false

/-- The `===` operator (`IsStrictlyEqual`) between a stored value and a value
of the request being handled: two arrays or objects are different references,
whatever their content. -/
def strictEq : JSValue → JSValue → Bool
  | .undefined, .undefined => true
  | .null, .null => true
  | .bool a, .bool b => a == b
  | .number a, .number b => a.equal b
  | .string a, .string b => a == b
  | _, _ => false

/-- `ToNumber` applied to a value (also what `Number(v)` returns); `none` when
the conversion throws. -/
def toNumber (rt : Runtime) : JSValue → Option JSNumber
  | .undefined => some .nan
  | .null => some (.fin 0)
  | .bool true => some (.fin 1)
  | .bool false => some (.fin 0)
  | .number n => some n
  | .string s => some (rt.stringToNumber s)
  | .array items => rt.objectToNumber (.array items)
  | .object props => rt.objectToNumber (.object props)

/-- `v < k` for a numeric constant `k`: the right operand is a Number, so the
left operand is converted with `ToNumber`; `none` when that throws. -/
def ltConst (rt : Runtime) (v : JSValue) (k : ℚ) : Option Bool :=
  (toNumber rt v).map (fun n => n.lessThan (.fin k))

/-- `v > k` for a numeric constant `k`; `none` when the conversion throws. -/
def gtConst (rt : Runtime) (v : JSValue) (k : ℚ) : Option Bool :=
  (toNumber rt v).map (fun n => (JSNumber.fin k).lessThan n)

/-- The level test of lines 62 and 98, `level < 1 || level > 99`, evaluated
left to right; `none` when it throws. -/
def levelOutOfRange (rt : Runtime) (level : JSValue) : Option Bool :=
  match ltConst rt level 1 with
  | none => none
  | some true => some true
  | some false => gtConst rt level 99

/-! ## Data model -/

/-- A character record: the object literal `{ id, name, job, weapon, level }`.
A property whose value is `undefined` is one the payload did not supply. -/
structure Character where
  id : JSValue
  name : JSValue
  job : JSValue
  weapon : JSValue
  level : JSValue
  deriving DecidableEq

/-- A parsed request body: its own properties in order. -/
abbrev JSObject := List (String × JSValue)

/-- Property read `o.k`; `undefined` when `o` has no property `k`. -/
def JSObject.get (o : JSObject) (k : String) : JSValue :=
  (o.lookup k).getD .undefined

/-- The initial value of `characters` (lines 11-15). -/
def seed : List Character :=
  [ { id := .number (.fin 1), name := .string "Cloud Strife", job := .string "Soldier",
      weapon := .string "Buster sword", level := .number (.fin 25) },
    { id := .number (.fin 2), name := .string "Tifa Lockhart", job := .string "Fighter",
      weapon := .string "Leather gloves", level := .number (.fin 22) },
    { id := .number (.fin 3), name := .string "Aerith Gainsborough", job := .string "Mage",
      weapon := .string "Magic staff", level := .number (.fin 20) } ]

/-! ## HTTP responses -/

/-- What a handler sends back after the status code. `errorPage` is the page
that the framework sends when a handler throws. -/
inductive ResBody where
  | empty
  | error (msg : String)
  | message (msg : String)
  | character (c : Character)
  | characters (cs : List Character)
  | redirect (location : String)
  | errorPage
  deriving DecidableEq

/-- An HTTP response: status code and body. -/
structure Response where
  status : Nat
  body : ResBody
  deriving DecidableEq

/-! ## Handlers -/

/-- `Array.prototype.findIndex`; `none` stands for the result `-1`. -/
def findIndex (p : Character → Bool) : List Character → Option Nat
  | [] => none
  | c :: cs => if p c then some 0 else (findIndex p cs).map (· + 1)

/-- The test `!body || Object.keys(body).length === 0` (lines 47 and 76). -/
def bodyIsEmpty : Option JSObject → Bool
  | none => true
  | some o => o.length == 0

/-- `GET /characters` (lines 26-28). -/
def getCharacters (characters : List Character) : Response × List Character :=
  (⟨200, .characters characters⟩, characters)

/-- `GET /characters/:id` (lines 31-40). -/
def getCharacter (characters : List Character) (id : JSNumber) :
    Response × List Character :=
  match characters.find? (fun c => strictEq c.id (.number id)) with
  | none => (⟨404, .error "Character not found"⟩, characters)
  | some character => (⟨200, .character character⟩, characters)

/-- `POST /characters` (lines 43-68). The level test can throw, which happens
before `push`. -/
def postCharacters (rt : Runtime) (characters : List Character) (body : Option JSObject) :
    Response × List Character :=
  if bodyIsEmpty body then (⟨400, .error "Body is empty"⟩, characters)
  else
    let newChar : JSObject := body.getD []
    let id := newChar.get "id"
    let name := newChar.get "name"
    let job := newChar.get "job"
    let weapon := newChar.get "weapon"
    let level := newChar.get "level"
    let exists_ := characters.any (fun c => strictEq c.id id || strictEq c.name name)
    if exists_ then (⟨400, .error "ID or name already exists"⟩, characters)
    else
      match levelOutOfRange rt level with
      | none => (⟨500, .errorPage⟩, characters)
      | some true => (⟨400, .error "Level must be between 1 and 99"⟩, characters)
      | some false =>
        (⟨201, .message "Character created"⟩, characters ++ [⟨id, name, job, weapon, level⟩])

/-- `PUT /characters/:id` (lines 71-107). The level test can throw, which
happens before the assignment. -/
def putCharacter (rt : Runtime) (characters : List Character) (id : JSNumber)
    (body : Option JSObject) : Response × List Character :=
  if bodyIsEmpty body then (⟨400, .error "Body is empty"⟩, characters)
  else
    let updatedChar : JSObject := body.getD []
    match findIndex (fun c => strictEq c.id (.number id)) characters with
    | none => (⟨404, .error "Character does not exist"⟩, characters)
    | some index =>
      let newId := updatedChar.get "id"
      let name := updatedChar.get "name"
      let job := updatedChar.get "job"
      let weapon := updatedChar.get "weapon"
      let level := updatedChar.get "level"
      let duplicate := characters.any
        (fun c => (strictEq c.id newId || strictEq c.name name) && !strictEq c.id (.number id))
      if duplicate then (⟨400, .error "ID or name already exists"⟩, characters)
      else
        match levelOutOfRange rt level with
        | none => (⟨500, .errorPage⟩, characters)
        | some true => (⟨400, .error "Level must be between 1 and 99"⟩, characters)
        | some false =>
          (⟨204, .empty⟩, characters.set index ⟨newId, name, job, weapon, level⟩)

/-- `DELETE /characters/:id` (lines 110-120). -/
def deleteCharacter (characters : List Character) (id : JSNumber) :
    Response × List Character :=
  match findIndex (fun c => strictEq c.id (.number id)) characters with
  | none => (⟨404, .error "Character does not exist"⟩, characters)
  | some index => (⟨204, .empty⟩, characters.eraseIdx index)

/-- `POST /new` (lines 145-158). Destructuring an absent `req.body` throws
(line 146), and so can `Number(id)` (line 150) and `Number(level)` (line 154),
which are evaluated, in this order, before `push` is called. -/
def postNew (rt : Runtime) (characters : List Character) (body : Option JSObject) :
    Response × List Character :=
  match body with
  | none => (⟨500, .errorPage⟩, characters)
  | some o =>
    let id := o.get "id"
    let name := o.get "name"
    let job := o.get "job"
    let weapon := o.get "weapon"
    let level := o.get "level"
    match toNumber rt id with
    | none => (⟨500, .errorPage⟩, characters)
    | some idNumber =>
      match toNumber rt level with
      | none => (⟨500, .errorPage⟩, characters)
      | some levelNumber =>
        (⟨302, .redirect "/list"⟩,
          characters ++ [⟨.number idNumber, name, job, weapon, .number levelNumber⟩])

/-! ## The API as a transition system -/

/-- A mutating API request. -/
inductive Request where
  | create (body : Option JSObject)
  | update (id : JSNumber) (body : Option JSObject)
  | delete (id : JSNumber)

/-- Dispatch of a request to its handler. -/
def handle (rt : Runtime) (characters : List Character) : Request → Response × List Character
  | .create body => postCharacters rt characters body
  | .update id body => putCharacter rt characters id body
  | .delete id => deleteCharacter characters id

/-- A body produced by the JSON or URL-encoded parser holds no `NaN`. -/
def bodyParsed : Option JSObject → Prop
  | none => True
  | some o => ∀ kv ∈ o, kv.2 ≠ .number .nan

/-- A request whose body, if it has one, came out of a body parser. -/
def Request.parsed : Request → Prop
  | .create body => bodyParsed body
  | .update _ body => bodyParsed body
  | .delete _ => True

/-- A request whose payload, if it has one, carries an integer level. -/
def Request.integerLevel : Request → Prop
  | .create body => ∀ o, body = some o → ∃ n : Int, o.get "level" = .number (.fin n)
  | .update _ body => ∀ o, body = some o → ∃ n : Int, o.get "level" = .number (.fin n)
  | .delete _ => True

/-- The collection states reachable from the seed through API requests that
satisfy `P`. -/
inductive ReachableBy (rt : Runtime) (P : Request → Prop) : List Character → Prop where
  | seed : ReachableBy rt P seed
  | step {cs : List Character} (r : Request) :
      ReachableBy rt P cs → P r → ReachableBy rt P (handle rt cs r).2

/-- The collection states reachable from the seed through the API. -/
abbrev Reachable (rt : Runtime) : List Character → Prop :=
  ReachableBy rt Request.parsed

/-- The collection states reachable from the seed through the API and the
form-backed page together. -/
inductive ReachableWithForms (rt : Runtime) : List Character → Prop where
  | seed : ReachableWithForms rt seed
  | api {cs : List Character} (r : Request) :
      ReachableWithForms rt cs → ReachableWithForms rt (handle rt cs r).2
  | form {cs : List Character} (body : Option JSObject) :
      ReachableWithForms rt cs → ReachableWithForms rt (postNew rt cs body).2

/-- Reads the decimal digits `cs` as a natural number, continuing from `acc`. -/
def decimalValue : List Char → Nat → Option Nat
  | [], acc => some acc
  | c :: cs, acc =>
    if c.isDigit then decimalValue cs (10 * acc + (c.toNat - 48)) else none

/-- A runtime for evaluating examples. Its `stringToNumber` agrees with
ECMAScript `StringToNumber` on the empty string and on strings of at most 15
decimal digits. Its `objectToNumber` agrees with ECMAScript on objects (an own
`toString` property, which in a parsed body is never callable, makes the
conversion throw; any other object converts to `NaN`), on the empty array and
on an array of one number; the examples convert no other array. -/
def sampleRuntime : Runtime where
  stringToNumber s :=
    match s.data with
    | [] => .fin 0
    | cs => match decimalValue cs 0 with
      | some n => .fin n
      | none => .nan
  objectToNumber v :=
    match v with
    | .object props => if props.any (fun kv => kv.1 == "toString") then none else some .nan
    | .array [] => some (.fin 0)
    | .array [.number n] => some n
    | _ => some .nan

/-! ## Vocabulary of the properties -/

/-- The record that lines 51+66 and 87+103 build from a payload: the object
literal `{ id, name, job, weapon, level }` of its five destructured fields. -/
def recordOf (o : JSObject) : Character :=
  ⟨o.get "id", o.get "name", o.get "job", o.get "weapon", o.get "level"⟩

/-- No two records at different positions agree on the field `f`. -/
def DistinctOn (f : Character → JSValue) (cs : List Character) : Prop :=
  ∀ (i j : Nat) (a b : Character), i ≠ j → cs[i]? = some a → cs[j]? = some b → f a ≠ f b

/-- No record whose field `f` is a primitive agrees on `f` with a record at
another position. -/
def PrimitiveDistinctOn (f : Character → JSValue) (cs : List Character) : Prop :=
  ∀ (i j : Nat) (a b : Character), i ≠ j → cs[i]? = some a → cs[j]? = some b →
    (f a).isObject = false → f a ≠ f b

/-- A value that is an integer Number between 1 and 99. -/
def IsLevel (v : JSValue) : Prop :=
  ∃ n : Int, v = .number (.fin n) ∧ 1 ≤ n ∧ n ≤ 99

/-- The invariant carried along API runs: no stored id or name is `NaN`, and
an id or name that is a primitive occurs at one position only. -/
def StoreInv (cs : List Character) : Prop :=
  (∀ c ∈ cs, c.id ≠ .number .nan ∧ c.name ≠ .number .nan) ∧
    PrimitiveDistinctOn Character.id cs ∧ PrimitiveDistinctOn Character.name cs

/-- The path id `id` occurs at one position of the collection at most. -/
def AtMostOnce (id : JSNumber) (cs : List Character) : Prop :=
  ∀ (i j : Nat) (a b : Character), cs[i]? = some a → cs[j]? = some b →
    strictEq a.id (.number id) = true → strictEq b.id (.number id) = true → i = j

/-- The payload of the creation scenario of the specification. -/
def barret : JSObject :=
  [("id", .number (.fin 4)), ("name", .string "Barret"), ("job", .string "Gunner"),
   ("weapon", .string "Gun-arm"), ("level", .number (.fin 30))]

/-- A creation payload whose id is the string `"4"` instead of the number 4. -/
def barretStringId : JSObject :=
  [("id", .string "4"), ("name", .string "Barret"), ("job", .string "Gunner"),
   ("weapon", .string "Gun-arm"), ("level", .number (.fin 30))]

/-- The payload of the update scenario of the specification. -/
def tifaUpdate : JSObject :=
  [("id", .number (.fin 2)), ("name", .string "Tifa Lockhart"),
   ("job", .string "Martial Artist"), ("weapon", .string "Fists"), ("level", .number (.fin 99))]

/-- The payload of the duplicate-id scenario of the specification. -/
def clashingId : JSObject :=
  [("id", .number (.fin 1)), ("name", .string "X"), ("job", .string "Y"),
   ("weapon", .string "Z"), ("level", .number (.fin 10))]

/-- A form submission that repeats the id and the name of the first seed
record, with level 0. -/
def cloudForm : JSObject :=
  [("id", .string "1"), ("name", .string "Cloud Strife"), ("job", .string "Soldier"),
   ("weapon", .string "Buster sword"), ("level", .string "0")]

/-- A form submission that repeats the id of the first seed record under a new
name. -/
def zackForm : JSObject :=
  [("id", .string "1"), ("name", .string "Zack Fair"), ("job", .string "Soldier"),
   ("weapon", .string "Buster sword"), ("level", .string "30")]

/-- The parsed body of `{"id": [1], "name": [2], "level": 5}`. -/
def arrayPayload : JSObject :=
  [("id", .array [.number (.fin 1)]), ("name", .array [.number (.fin 2)]),
   ("level", .number (.fin 5))]

/-- The parsed body of `{"id": 4, "name": ["Vincent"], "level": 5}`. -/
def arrayNameFour : JSObject :=
  [("id", .number (.fin 4)), ("name", .array [.string "Vincent"]), ("level", .number (.fin 5))]

/-- The parsed body of `{"id": 5, "name": ["Vincent"], "level": 5}`. -/
def arrayNameFive : JSObject :=
  [("id", .number (.fin 5)), ("name", .array [.string "Vincent"]), ("level", .number (.fin 5))]

/-- The parsed body of `{"id": 2, "name": [2], "level": 5}`. -/
def tifaArrayName : JSObject :=
  [("id", .number (.fin 2)), ("name", .array [.number (.fin 2)]), ("level", .number (.fin 5))]

/-- The parsed body of `{"id": {"toString": 0}}`, whose id cannot be converted
to a number. -/
def shadowedToString : JSObject :=
  [("id", .object [("toString", .number (.fin 0))])]

/-- The parsed body of `{"id": 9, "name": "Yuffie", "level": {"toString": 0}}`,
whose level cannot be converted to a number. -/
def shadowedLevel : JSObject :=
  [("id", .number (.fin 9)), ("name", .string "Yuffie"),
   ("level", .object [("toString", .number (.fin 0))])]

/-- A payload without a level field. -/
def noLevel : JSObject :=
  [("id", .number (.fin 4)), ("name", .string "Barret"), ("job", .string "Gunner")]

/-- The collection of the name-clash scenario: ids 1, 1, 2 and names a, b, c. -/
def sharedIdCollection : List Character :=
  [ ⟨.number (.fin 1), .string "a", .undefined, .undefined, .number (.fin 5)⟩,
    ⟨.number (.fin 1), .string "b", .undefined, .undefined, .number (.fin 5)⟩,
    ⟨.number (.fin 2), .string "c", .undefined, .undefined, .number (.fin 5)⟩ ]

/-- The payload of the name-clash scenario. -/
def renameToB : JSObject :=
  [("id", .number (.fin 1)), ("name", .string "b"), ("level", .number (.fin 10))]

/-! ## Basic facts about the JavaScript operations -/

theorem JSNumber.equal_eq {a b : JSNumber} (h : a.equal b = true) : a = b := by
  cases a <;> cases b <;> simp_all [JSNumber.equal]

theorem JSNumber.equal_self {a : JSNumber} (h : a ≠ .nan) : a.equal a = true := by
  cases a <;> simp_all [JSNumber.equal]

theorem strictEq_eq {a b : JSValue} (h : strictEq a b = true) : a = b := by
  cases a <;> cases b <;> simp_all [strictEq]
  exact JSNumber.equal_eq h

theorem strictEq_self {a : JSValue} (h : a ≠ .number .nan) (hp : a.isObject = false) :
    strictEq a a = true := by
  cases a <;> simp_all [strictEq, JSValue.isObject]
  exact JSNumber.equal_self h

theorem strictEq_number_ne_nan {a : JSValue} {n : JSNumber}
    (h : strictEq a (.number n) = true) : n ≠ .nan := by
  cases a <;> simp_all [strictEq]
  rename_i m
  cases m <;> cases n <;> simp_all [JSNumber.equal]

theorem ne_of_strictEq_false {a b : JSValue} (ha : a ≠ .number .nan)
    (hp : a.isObject = false) (h : strictEq a b = false) : a ≠ b := by
  intro e
  subst e
  rw [strictEq_self ha hp] at h
  exact Bool.noConfusion h

theorem toNumber_of_primitive (rt : Runtime) {a : JSValue} (hp : a.isObject = false) :
    ∃ n, toNumber rt a = some n := by
  cases a with
  | bool b => cases b <;> exact ⟨_, rfl⟩
  | array items => simp [JSValue.isObject] at hp
  | object props => simp [JSValue.isObject] at hp
  | _ => exact ⟨_, rfl⟩

theorem levelOutOfRange_number (rt : Runtime) (m : JSNumber) :
    levelOutOfRange rt (.number m) =
      some (m.lessThan (.fin 1) || (JSNumber.fin 99).lessThan m) := by
  simp only [levelOutOfRange, ltConst, gtConst, toNumber, Option.map_some']
  cases h : m.lessThan (.fin 1) <;> simp

theorem levelOutOfRange_int (rt : Runtime) (n : Int) :
    levelOutOfRange rt (.number (.fin n)) = some (decide (n < 1 ∨ 99 < n)) := by
  rw [levelOutOfRange_number]
  congr 1
  simp only [JSNumber.lessThan]
  by_cases h1 : n < 1
  · have : (n : ℚ) < 1 := by exact_mod_cast h1
    simp [h1, this]
  · by_cases h2 : 99 < n
    · have : (99 : ℚ) < n := by exact_mod_cast h2
      simp [h2, this]
    · have h1' : ¬ (n : ℚ) < 1 := by
        intro h; exact h1 (by exact_mod_cast h)
      have h2' : ¬ (99 : ℚ) < n := by
        intro h; exact h2 (by exact_mod_cast h)
      simp [h1, h2, h1', h2']

theorem levelOutOfRange_int_false (rt : Runtime) (n : Int) :
    levelOutOfRange rt (.number (.fin n)) = some false ↔ 1 ≤ n ∧ n ≤ 99 := by
  rw [levelOutOfRange_int]
  simp only [Option.some.injEq, decide_eq_false_iff_not]
  omega

theorem findIndex_none {p : Character → Bool} {cs : List Character} :
    findIndex p cs = none ↔ ∀ c ∈ cs, p c = false := by
  induction cs with
  | nil => simp [findIndex]
  | cons c cs ih =>
    by_cases hc : p c = true
    · simp [findIndex, hc]
    · simp [findIndex, hc, ih]

theorem findIndex_some {p : Character → Bool} {cs : List Character} {i : Nat}
    (h : findIndex p cs = some i) :
    ∃ c, cs[i]? = some c ∧ p c = true ∧ ∀ j d, j < i → cs[j]? = some d → p d = false := by
  induction cs generalizing i with
  | nil => simp [findIndex] at h
  | cons c cs ih =>
    by_cases hc : p c = true
    · simp [findIndex, hc] at h
      subst h
      exact ⟨c, by simp, hc, by intro j d hj; omega⟩
    · simp [findIndex, hc] at h
      obtain ⟨k, hk, rfl⟩ := h
      obtain ⟨c', h1, h2, h3⟩ := ih hk
      refine ⟨c', by simpa using h1, h2, ?_⟩
      intro j d hj hd
      cases j with
      | zero => simp at hd; subst hd; simpa using hc
      | succ j => exact h3 j d (by omega) (by simpa using hd)

theorem findIndex_isSome {p : Character → Bool} {cs : List Character}
    (h : ∃ c ∈ cs, p c = true) : ∃ k, findIndex p cs = some k := by
  cases hk : findIndex p cs with
  | none =>
    obtain ⟨c, hc, hp⟩ := h
    rw [findIndex_none.1 hk c hc] at hp
    exact Bool.noConfusion hp
  | some k => exact ⟨k, rfl⟩

theorem find?_of_first {p : Character → Bool} {cs : List Character} {k : Nat} {x : Character}
    (hx : cs[k]? = some x) (hp : p x = true)
    (hfirst : ∀ (j : Nat) (d : Character), j < k → cs[j]? = some d → p d = false) :
    cs.find? p = some x := by
  induction cs generalizing k with
  | nil => simp at hx
  | cons c cs ih =>
    cases k with
    | zero =>
      simp only [List.getElem?_cons_zero, Option.some.injEq] at hx
      subst hx
      simp [List.find?, hp]
    | succ k =>
      have hc : p c = false := hfirst 0 c (by omega) (by simp)
      simp only [List.find?, hc]
      exact ih (by simpa using hx) (fun j d hj hd => hfirst (j + 1) d (by omega) (by simpa using hd))

theorem JSObject.get_ne_nan {o : JSObject} (h : ∀ kv ∈ o, kv.2 ≠ JSValue.number .nan)
    (k : String) : o.get k ≠ .number .nan := by
  unfold JSObject.get
  cases hl : List.lookup k o with
  | none => simp
  | some v =>
    simp only [Option.getD_some]
    induction o with
    | nil => simp at hl
    | cons kv o ih =>
      obtain ⟨k', v'⟩ := kv
      simp only [List.lookup] at hl
      split at hl
      · simp at hl
        subst hl
        exact h (k', v') (by simp)
      · exact ih (fun kv hkv => h kv (by simp [hkv])) hl

theorem JSObject.get_of_lookup_none {o : JSObject} {k : String} (h : o.lookup k = none) :
    o.get k = .undefined := by
  simp [JSObject.get, h]

/-! ## The handlers on an empty and on a non-empty body -/

theorem bodyIsEmpty_eq_false {body : Option JSObject} :
    bodyIsEmpty body = false ↔ ∃ o, body = some o ∧ o ≠ [] := by
  cases body with
  | none => simp [bodyIsEmpty]
  | some o => cases o <;> simp [bodyIsEmpty]

theorem postCharacters_some (rt : Runtime) (cs : List Character) (o : JSObject) (ho : o ≠ []) :
    postCharacters rt cs (some o) =
      if cs.any (fun c => strictEq c.id (o.get "id") || strictEq c.name (o.get "name")) then
        (⟨400, .error "ID or name already exists"⟩, cs)
      else
        match levelOutOfRange rt (o.get "level") with
        | none => (⟨500, .errorPage⟩, cs)
        | some true => (⟨400, .error "Level must be between 1 and 99"⟩, cs)
        | some false => (⟨201, .message "Character created"⟩, cs ++ [recordOf o]) := by
  have h : bodyIsEmpty (some o) = false := bodyIsEmpty_eq_false.2 ⟨o, rfl, ho⟩
  simp only [postCharacters, h, Bool.false_eq_true, if_false]
  rfl

theorem postCharacters_empty (rt : Runtime) (cs : List Character) (body : Option JSObject)
    (h : bodyIsEmpty body = true) :
    postCharacters rt cs body = (⟨400, .error "Body is empty"⟩, cs) := by
  simp [postCharacters, h]

theorem putCharacter_some (rt : Runtime) (cs : List Character) (id : JSNumber) (o : JSObject)
    (ho : o ≠ []) :
    putCharacter rt cs id (some o) =
      match findIndex (fun c => strictEq c.id (.number id)) cs with
      | none => (⟨404, .error "Character does not exist"⟩, cs)
      | some index =>
        if cs.any (fun c => (strictEq c.id (o.get "id") || strictEq c.name (o.get "name"))
            && !strictEq c.id (.number id)) then
          (⟨400, .error "ID or name already exists"⟩, cs)
        else
          match levelOutOfRange rt (o.get "level") with
          | none => (⟨500, .errorPage⟩, cs)
          | some true => (⟨400, .error "Level must be between 1 and 99"⟩, cs)
          | some false => (⟨204, .empty⟩, cs.set index (recordOf o)) := by
  have h : bodyIsEmpty (some o) = false := bodyIsEmpty_eq_false.2 ⟨o, rfl, ho⟩
  simp only [putCharacter, h, Bool.false_eq_true, if_false]
  rfl

theorem putCharacter_empty (rt : Runtime) (cs : List Character) (id : JSNumber)
    (body : Option JSObject) (h : bodyIsEmpty body = true) :
    putCharacter rt cs id body = (⟨400, .error "Body is empty"⟩, cs) := by
  simp [putCharacter, h]

theorem postCharacters_accepts (rt : Runtime) (cs : List Character) (o : JSObject) (ho : o ≠ [])
    (hany : cs.any (fun c => strictEq c.id (o.get "id") || strictEq c.name (o.get "name"))
      = false)
    (hlvl : levelOutOfRange rt (o.get "level") = some false) :
    postCharacters rt cs (some o) =
      (⟨201, .message "Character created"⟩, cs ++ [recordOf o]) := by
  rw [postCharacters_some rt cs o ho, hany, hlvl]
  rfl

theorem putCharacter_accepts (rt : Runtime) (cs : List Character) (id : JSNumber)
    (o : JSObject) (k : Nat) (ho : o ≠ [])
    (hk : findIndex (fun c => strictEq c.id (.number id)) cs = some k)
    (hany : cs.any (fun c => (strictEq c.id (o.get "id") || strictEq c.name (o.get "name"))
      && !strictEq c.id (.number id)) = false)
    (hlvl : levelOutOfRange rt (o.get "level") = some false) :
    putCharacter rt cs id (some o) = (⟨204, .empty⟩, cs.set k (recordOf o)) := by
  rw [putCharacter_some rt cs id o ho, hk]
  simp only [hany, hlvl]
  rfl

theorem postCharacters_created {rt : Runtime} {cs : List Character} {body : Option JSObject}
    (h : (postCharacters rt cs body).1.status = 201) :
    ∃ o, body = some o ∧ o ≠ [] ∧
      cs.any (fun c => strictEq c.id (o.get "id") || strictEq c.name (o.get "name")) = false ∧
      levelOutOfRange rt (o.get "level") = some false ∧
      postCharacters rt cs body = (⟨201, .message "Character created"⟩, cs ++ [recordOf o]) := by
  by_cases he : bodyIsEmpty body = true
  · rw [postCharacters_empty rt cs body he] at h
    simp at h
  · obtain ⟨o, rfl, ho⟩ := bodyIsEmpty_eq_false.1 (by simpa using he)
    rw [postCharacters_some rt cs o ho] at h
    split at h
    · simp at h
    · rename_i h1
      split at h
      · simp at h
      · simp at h
      · rename_i h2
        have h1' : cs.any (fun c => strictEq c.id (o.get "id") ||
            strictEq c.name (o.get "name")) = false := by simpa using h1
        exact ⟨o, rfl, ho, h1', h2, postCharacters_accepts rt cs o ho h1' h2⟩

theorem putCharacter_updated {rt : Runtime} {cs : List Character} {id : JSNumber}
    {body : Option JSObject} (h : (putCharacter rt cs id body).1.status = 204) :
    ∃ o k, body = some o ∧ o ≠ [] ∧
      findIndex (fun c => strictEq c.id (.number id)) cs = some k ∧
      cs.any (fun c => (strictEq c.id (o.get "id") || strictEq c.name (o.get "name"))
        && !strictEq c.id (.number id)) = false ∧
      levelOutOfRange rt (o.get "level") = some false ∧
      putCharacter rt cs id body = (⟨204, .empty⟩, cs.set k (recordOf o)) := by
  by_cases he : bodyIsEmpty body = true
  · rw [putCharacter_empty rt cs id body he] at h
    simp at h
  · obtain ⟨o, rfl, ho⟩ := bodyIsEmpty_eq_false.1 (by simpa using he)
    rw [putCharacter_some rt cs id o ho] at h
    split at h
    · simp at h
    · rename_i k hk
      split at h
      · simp at h
      · rename_i h1
        split at h
        · simp at h
        · simp at h
        · rename_i h2
          have h1' : cs.any (fun c => (strictEq c.id (o.get "id") ||
              strictEq c.name (o.get "name")) && !strictEq c.id (.number id)) = false := by
            simpa using h1
          exact ⟨o, k, rfl, ho, hk, h1', h2, putCharacter_accepts rt cs id o k ho hk h1' h2⟩

theorem postCharacters_rejected {rt : Runtime} {cs : List Character} {body : Option JSObject}
    (h : (postCharacters rt cs body).1.status ≠ 201) :
    ((postCharacters rt cs body).1.status = 400 ∨ (postCharacters rt cs body).1.status = 500) ∧
      (postCharacters rt cs body).2 = cs := by
  by_cases he : bodyIsEmpty body = true
  · rw [postCharacters_empty rt cs body he]; exact ⟨Or.inl rfl, rfl⟩
  · obtain ⟨o, rfl, ho⟩ := bodyIsEmpty_eq_false.1 (by simpa using he)
    rw [postCharacters_some rt cs o ho] at h ⊢
    split
    · exact ⟨Or.inl rfl, rfl⟩
    · split
      · exact ⟨Or.inr rfl, rfl⟩
      · exact ⟨Or.inl rfl, rfl⟩
      · rename_i h1 _ h2
        rw [if_neg h1, h2] at h
        exact absurd rfl h

theorem putCharacter_rejected {rt : Runtime} {cs : List Character} {id : JSNumber}
    {body : Option JSObject} (h : (putCharacter rt cs id body).1.status ≠ 204) :
    ((putCharacter rt cs id body).1.status = 400 ∨ (putCharacter rt cs id body).1.status = 404 ∨
        (putCharacter rt cs id body).1.status = 500) ∧
      (putCharacter rt cs id body).2 = cs := by
  by_cases he : bodyIsEmpty body = true
  · rw [putCharacter_empty rt cs id body he]; exact ⟨Or.inl rfl, rfl⟩
  · obtain ⟨o, rfl, ho⟩ := bodyIsEmpty_eq_false.1 (by simpa using he)
    rw [putCharacter_some rt cs id o ho] at h ⊢
    split
    · exact ⟨Or.inr (Or.inl rfl), rfl⟩
    · split
      · exact ⟨Or.inl rfl, rfl⟩
      · split
        · exact ⟨Or.inr (Or.inr rfl), rfl⟩
        · exact ⟨Or.inl rfl, rfl⟩
        · rename_i k hk h1 _ h2
          rw [hk] at h
          simp only [if_neg h1, h2] at h
          exact absurd rfl h

/-! ## Uniqueness of primitive ids and names along API runs -/

theorem ne_of_strictEq_false_of_primitive {a b : JSValue} (ha : a ≠ .number .nan)
    (hp : a.isObject = false ∨ b.isObject = false) (h : strictEq a b = false) : a ≠ b := by
  intro e
  subst e
  exact ne_of_strictEq_false ha (hp.elim id id) h rfl

theorem PrimitiveDistinctOn.append {f : Character → JSValue} {cs : List Character}
    {x : Character} (h : PrimitiveDistinctOn f cs)
    (hx : ∀ c ∈ cs, (f c).isObject = false ∨ (f x).isObject = false → f c ≠ f x) :
    PrimitiveDistinctOn f (cs ++ [x]) := by
  intro i j a b hij ha hb hprim
  rw [List.getElem?_append] at ha hb
  split at ha <;> split at hb
  · exact h i j a b hij ha hb hprim
  · have hb' : b = x := by
      have := List.getElem?_mem hb
      simpa using this
    subst hb'
    exact hx a (List.getElem?_mem ha) (Or.inl hprim)
  · have ha' : a = x := by
      have := List.getElem?_mem ha
      simpa using this
    subst ha'
    exact fun e => hx b (List.getElem?_mem hb) (Or.inr hprim) e.symm
  · rename_i h1 h2
    have h3 : i - cs.length < 1 := by
      have := (List.getElem?_eq_some.1 ha).1
      simpa using this
    have h4 : j - cs.length < 1 := by
      have := (List.getElem?_eq_some.1 hb).1
      simpa using this
    omega

theorem PrimitiveDistinctOn.eraseIdx {f : Character → JSValue} {cs : List Character}
    (h : PrimitiveDistinctOn f cs) (k : Nat) : PrimitiveDistinctOn f (cs.eraseIdx k) := by
  intro i j a b hij ha hb hprim
  rw [List.getElem?_eraseIdx] at ha hb
  split at ha <;> split at hb
  · exact h i j a b hij ha hb hprim
  · exact h i (j + 1) a b (by omega) ha hb hprim
  · exact h (i + 1) j a b (by omega) ha hb hprim
  · exact h (i + 1) (j + 1) a b (by omega) ha hb hprim

theorem PrimitiveDistinctOn.set {f : Character → JSValue} {cs : List Character}
    {x : Character} {k : Nat} (h : PrimitiveDistinctOn f cs)
    (hx : ∀ (j : Nat) (c : Character), j ≠ k → cs[j]? = some c →
      (f c).isObject = false ∨ (f x).isObject = false → f c ≠ f x) :
    PrimitiveDistinctOn f (cs.set k x) := by
  intro i j a b hij ha hb hprim
  rw [List.getElem?_set] at ha hb
  split at ha <;> split at hb
  · omega
  · rename_i h1 h2
    split at ha
    · simp at ha; subst ha
      exact fun e => hx j b (by omega) hb (Or.inr hprim) e.symm
    · simp at ha
  · rename_i h1 h2
    split at hb
    · simp at hb; subst hb
      exact hx i a (by omega) ha (Or.inl hprim)
    · simp at hb
  · exact h i j a b hij ha hb hprim

theorem storeInv_seed : StoreInv seed := by
  refine ⟨by simp [seed], ?_, ?_⟩
  all_goals
    intro i j a b hij ha hb _
    match i, j with
    | 0, 0 | 1, 1 | 2, 2 => exact absurd rfl hij
    | 0, 1 | 0, 2 | 1, 0 | 1, 2 | 2, 0 | 2, 1 =>
      simp [seed] at ha hb
      subst ha hb
      simp
    | _ + 3, _ | _, _ + 3 => simp [seed] at ha hb

theorem storeInv_post (rt : Runtime) {cs : List Character} {body : Option JSObject}
    (hinv : StoreInv cs) (hb : bodyParsed body) : StoreInv (postCharacters rt cs body).2 := by
  by_cases hs : (postCharacters rt cs body).1.status = 201
  · obtain ⟨o, rfl, -, hany, -, heq⟩ := postCharacters_created hs
    rw [heq]
    have hany' : ∀ c ∈ cs, strictEq c.id (o.get "id") = false ∧
        strictEq c.name (o.get "name") = false := by
      intro c hc
      have := List.any_eq_false.1 hany c hc
      simpa using this
    obtain ⟨hnan, hid, hname⟩ := hinv
    refine ⟨?_, hid.append ?_, hname.append ?_⟩
    · intro c hc
      rcases List.mem_append.1 hc with hc | hc
      · exact hnan c hc
      · simp only [List.mem_singleton] at hc
        subst hc
        exact ⟨JSObject.get_ne_nan hb _, JSObject.get_ne_nan hb _⟩
    · intro c hc hp
      exact ne_of_strictEq_false_of_primitive (hnan c hc).1 hp (hany' c hc).1
    · intro c hc hp
      exact ne_of_strictEq_false_of_primitive (hnan c hc).2 hp (hany' c hc).2
  · rw [(postCharacters_rejected hs).2]
    exact hinv

theorem storeInv_put (rt : Runtime) {cs : List Character} (id : JSNumber)
    {body : Option JSObject} (hinv : StoreInv cs) (hb : bodyParsed body) :
    StoreInv (putCharacter rt cs id body).2 := by
  by_cases hs : (putCharacter rt cs id body).1.status = 204
  · obtain ⟨o, k, rfl, -, hk, hany, -, heq⟩ := putCharacter_updated hs
    rw [heq]
    obtain ⟨hnan, hid, hname⟩ := hinv
    obtain ⟨c0, hc0, hp0, -⟩ := findIndex_some hk
    have hc0id : c0.id = .number id := strictEq_eq hp0
    have hother : ∀ (j : Nat) (c : Character), j ≠ k → cs[j]? = some c →
        strictEq c.id (o.get "id") = false ∧ strictEq c.name (o.get "name") = false := by
      intro j c hj hc
      have hne : c.id ≠ .number id := by
        intro e
        exact hid k j c0 c (Ne.symm hj) hc0 hc (by rw [hc0id]; rfl) (by rw [hc0id, e])
      have hfalse : strictEq c.id (.number id) = false := by
        cases hs : strictEq c.id (.number id) with
        | false => rfl
        | true => exact absurd (strictEq_eq hs) hne
      have hdup : (strictEq c.id (o.get "id") = true ∨ strictEq c.name (o.get "name") = true) →
          strictEq c.id (.number id) = true := by
        have := List.any_eq_false.1 hany c (List.getElem?_mem hc)
        simpa using this
      constructor
      · cases hs : strictEq c.id (o.get "id") with
        | false => rfl
        | true => rw [hdup (Or.inl hs)] at hfalse; exact Bool.noConfusion hfalse
      · cases hs : strictEq c.name (o.get "name") with
        | false => rfl
        | true => rw [hdup (Or.inr hs)] at hfalse; exact Bool.noConfusion hfalse
    refine ⟨?_, hid.set ?_, hname.set ?_⟩
    · intro c hc
      rcases List.mem_or_eq_of_mem_set hc with hc | hc
      · exact hnan c hc
      · subst hc
        exact ⟨JSObject.get_ne_nan hb _, JSObject.get_ne_nan hb _⟩
    · intro j c hj hc hp
      exact ne_of_strictEq_false_of_primitive (hnan c (List.getElem?_mem hc)).1 hp
        (hother j c hj hc).1
    · intro j c hj hc hp
      exact ne_of_strictEq_false_of_primitive (hnan c (List.getElem?_mem hc)).2 hp
        (hother j c hj hc).2
  · rw [(putCharacter_rejected hs).2]
    exact hinv

theorem storeInv_delete {cs : List Character} (id : JSNumber) (hinv : StoreInv cs) :
    StoreInv (deleteCharacter cs id).2 := by
  unfold deleteCharacter
  split
  · exact hinv
  · obtain ⟨hnan, hid, hname⟩ := hinv
    exact ⟨fun c hc => hnan c (List.mem_of_mem_eraseIdx hc), hid.eraseIdx _, hname.eraseIdx _⟩

theorem storeInv_of_reachable {rt : Runtime} {cs : List Character} (h : Reachable rt cs) :
    StoreInv cs := by
  induction h with
  | seed => exact storeInv_seed
  | step r _ hp ih =>
    cases r with
    | create body => exact storeInv_post rt ih hp
    | update id body => exact storeInv_put rt id ih hp
    | delete id => exact storeInv_delete id ih

/-! ## Claims -/

theorem create_barret_parsed : (Request.create (some barret)).parsed := by
  show ∀ kv ∈ barret, kv.2 ≠ JSValue.number .nan
  decide

theorem create_arrayPayload_parsed : (Request.create (some arrayPayload)).parsed := by
  show ∀ kv ∈ arrayPayload, kv.2 ≠ JSValue.number .nan
  decide

theorem create_arrayNameFour_parsed : (Request.create (some arrayNameFour)).parsed := by
  show ∀ kv ∈ arrayNameFour, kv.2 ≠ JSValue.number .nan
  decide

theorem create_arrayNameFive_parsed : (Request.create (some arrayNameFive)).parsed := by
  show ∀ kv ∈ arrayNameFive, kv.2 ≠ JSValue.number .nan
  decide

/-- C1 (amended): in every collection state reachable from the three seed
records by API Create, Update and Delete requests, a record whose id is a
primitive value (not an array or object) shares its id with no record at
another position: the two ids are different values, and `===` does not hold
between them. -/
theorem reachable_primitive_ids_distinct (rt : Runtime) (cs : List Character)
    (h : Reachable rt cs) (i j : Nat) (a b : Character) (hij : i ≠ j)
    (ha : cs[i]? = some a) (hb : cs[j]? = some b) (hprim : a.id.isObject = false) :
    a.id ≠ b.id ∧ strictEq a.id b.id = false := by
  have hne : a.id ≠ b.id := (storeInv_of_reachable h).2.1 i j a b hij ha hb hprim
  refine ⟨hne, ?_⟩
  cases hs : strictEq a.id b.id with
  | false => rfl
  | true => exact absurd (strictEq_eq hs) hne

theorem reachable_primitive_ids_distinct_witness :
    Reachable sampleRuntime (handle sampleRuntime seed (.create (some barret))).2 ∧
      (handle sampleRuntime seed (.create (some barret))).2[0]? =
        some ⟨.number (.fin 1), .string "Cloud Strife", .string "Soldier",
          .string "Buster sword", .number (.fin 25)⟩ ∧
      (handle sampleRuntime seed (.create (some barret))).2[3]? = some (recordOf barret) ∧
      (JSValue.number (.fin 1)).isObject = false ∧
      (JSValue.number (.fin 1) ≠ (recordOf barret).id ∧
        strictEq (.number (.fin 1)) (recordOf barret).id = false) :=
  ⟨.step _ .seed create_barret_parsed, by decide, by decide, by decide,
    reachable_primitive_ids_distinct sampleRuntime
      (handle sampleRuntime seed (.create (some barret))).2
      (.step _ .seed create_barret_parsed) 0 3
      ⟨.number (.fin 1), .string "Cloud Strife", .string "Soldier", .string "Buster sword",
        .number (.fin 25)⟩ (recordOf barret) (by decide) (by decide) (by decide) (by decide)⟩

/-- C1 (counterexample): from the seed, `POST /characters` with
`{"id": [1], "name": [2], "level": 5}` responds 201, and the same request again
responds 201 too, because `===` never holds between two arrays; the state
reached has the id `[1]` at positions 3 and 4. -/
theorem create_array_id_twice :
    (handle sampleRuntime seed (.create (some arrayPayload))).1.status = 201 ∧
      (handle sampleRuntime (handle sampleRuntime seed (.create (some arrayPayload))).2
        (.create (some arrayPayload))).1.status = 201 ∧
      Reachable sampleRuntime
        (handle sampleRuntime (handle sampleRuntime seed (.create (some arrayPayload))).2
          (.create (some arrayPayload))).2 ∧
      ((handle sampleRuntime (handle sampleRuntime seed (.create (some arrayPayload))).2
          (.create (some arrayPayload))).2[3]?.map Character.id =
        some (.array [.number (.fin 1)])) ∧
      ((handle sampleRuntime (handle sampleRuntime seed (.create (some arrayPayload))).2
          (.create (some arrayPayload))).2[4]?.map Character.id =
        some (.array [.number (.fin 1)])) ∧
      ¬ DistinctOn Character.id
        (handle sampleRuntime (handle sampleRuntime seed (.create (some arrayPayload))).2
          (.create (some arrayPayload))).2 := by
  refine ⟨by decide, by decide,
    .step _ (.step _ .seed create_arrayPayload_parsed) create_arrayPayload_parsed,
    by decide, by decide, ?_⟩
  intro h
  exact h 3 4 (recordOf arrayPayload) (recordOf arrayPayload) (by decide) (by decide)
    (by decide) rfl

/-- C2 (amended): in every collection state reachable from the three seed
records by API Create, Update and Delete requests, a record whose name is a
primitive value (not an array or object) shares its name with no record at
another position: the two names are different values, and `===` does not hold
between them. -/
theorem reachable_primitive_names_distinct (rt : Runtime) (cs : List Character)
    (h : Reachable rt cs) (i j : Nat) (a b : Character) (hij : i ≠ j)
    (ha : cs[i]? = some a) (hb : cs[j]? = some b) (hprim : a.name.isObject = false) :
    a.name ≠ b.name ∧ strictEq a.name b.name = false := by
  have hne : a.name ≠ b.name := (storeInv_of_reachable h).2.2 i j a b hij ha hb hprim
  refine ⟨hne, ?_⟩
  cases hs : strictEq a.name b.name with
  | false => rfl
  | true => exact absurd (strictEq_eq hs) hne

theorem reachable_primitive_names_distinct_witness :
    Reachable sampleRuntime (handle sampleRuntime seed (.create (some barret))).2 ∧
      (handle sampleRuntime seed (.create (some barret))).2[1]? =
        some ⟨.number (.fin 2), .string "Tifa Lockhart", .string "Fighter",
          .string "Leather gloves", .number (.fin 22)⟩ ∧
      (handle sampleRuntime seed (.create (some barret))).2[3]? = some (recordOf barret) ∧
      (JSValue.string "Tifa Lockhart").isObject = false ∧
      (JSValue.string "Tifa Lockhart" ≠ (recordOf barret).name ∧
        strictEq (.string "Tifa Lockhart") (recordOf barret).name = false) :=
  ⟨.step _ .seed create_barret_parsed, by decide, by decide, by decide,
    reachable_primitive_names_distinct sampleRuntime
      (handle sampleRuntime seed (.create (some barret))).2
      (.step _ .seed create_barret_parsed) 1 3
      ⟨.number (.fin 2), .string "Tifa Lockhart", .string "Fighter", .string "Leather gloves",
        .number (.fin 22)⟩ (recordOf barret) (by decide) (by decide) (by decide) (by decide)⟩

/-- C2 (counterexample): from the seed, `POST /characters` with
`{"id": 4, "name": ["Vincent"], "level": 5}` and then with
`{"id": 5, "name": ["Vincent"], "level": 5}` both respond 201, because `===`
never holds between two arrays; the state reached has the name `["Vincent"]`
at positions 3 and 4, under the different ids 4 and 5. -/
theorem create_array_name_twice :
    (handle sampleRuntime seed (.create (some arrayNameFour))).1.status = 201 ∧
      (handle sampleRuntime (handle sampleRuntime seed (.create (some arrayNameFour))).2
        (.create (some arrayNameFive))).1.status = 201 ∧
      Reachable sampleRuntime
        (handle sampleRuntime (handle sampleRuntime seed (.create (some arrayNameFour))).2
          (.create (some arrayNameFive))).2 ∧
      ((handle sampleRuntime (handle sampleRuntime seed (.create (some arrayNameFour))).2
          (.create (some arrayNameFive))).2[3]?.map Character.name =
        some (.array [.string "Vincent"])) ∧
      ((handle sampleRuntime (handle sampleRuntime seed (.create (some arrayNameFour))).2
          (.create (some arrayNameFive))).2[4]?.map Character.name =
        some (.array [.string "Vincent"])) ∧
      ¬ DistinctOn Character.name
        (handle sampleRuntime (handle sampleRuntime seed (.create (some arrayNameFour))).2
          (.create (some arrayNameFive))).2 := by
  refine ⟨by decide, by decide,
    .step _ (.step _ .seed create_arrayNameFour_parsed) create_arrayNameFive_parsed,
    by decide, by decide, ?_⟩
  intro h
  exact h 3 4 (recordOf arrayNameFour) (recordOf arrayNameFive) (by decide) (by decide)
    (by decide) rfl

theorem isLevel_of_reachable {rt : Runtime} {cs : List Character}
    (h : ReachableBy rt Request.integerLevel cs) : ∀ c ∈ cs, IsLevel c.level := by
  induction h with
  | seed =>
    intro c hc
    simp only [seed, List.mem_cons, List.mem_singleton, List.not_mem_nil, or_false] at hc
    rcases hc with rfl | rfl | rfl
    · exact ⟨25, by simp, by decide, by decide⟩
    · exact ⟨22, by simp, by decide, by decide⟩
    · exact ⟨20, by simp, by decide, by decide⟩
  | @step cs r _ hp ih =>
    cases r with
    | create body =>
      by_cases hs : (postCharacters rt cs body).1.status = 201
      · obtain ⟨o, hbody, -, -, hlvl, heq⟩ := postCharacters_created hs
        obtain ⟨n, hn⟩ := hp o hbody
        intro c hc
        simp only [handle, heq, List.mem_append, List.mem_singleton] at hc
        rcases hc with hc | rfl
        · exact ih c hc
        · rw [hn] at hlvl
          exact ⟨n, hn, (levelOutOfRange_int_false rt n).1 hlvl⟩
      · simp only [handle, (postCharacters_rejected hs).2]
        exact ih
    | update id body =>
      by_cases hs : (putCharacter rt cs id body).1.status = 204
      · obtain ⟨o, k, hbody, -, -, -, hlvl, heq⟩ := putCharacter_updated hs
        obtain ⟨n, hn⟩ := hp o hbody
        intro c hc
        simp only [handle, heq] at hc
        rcases List.mem_or_eq_of_mem_set hc with hc | rfl
        · exact ih c hc
        · rw [hn] at hlvl
          exact ⟨n, hn, (levelOutOfRange_int_false rt n).1 hlvl⟩
      · simp only [handle, (putCharacter_rejected hs).2]
        exact ih
    | delete id =>
      intro c hc
      simp only [handle, deleteCharacter] at hc
      split at hc
      · exact ih c hc
      · exact ih c (List.mem_of_mem_eraseIdx hc)

/-- C3 (amended): for every collection and every payload whose level is an
integer, if API Create (201) or API Update (204) succeeds then the record it
stores carries that level and 1 <= level <= 99; hence every record of a state
reachable from the seed through API requests whose payloads carry an integer
level has an integer level in [1, 99]. -/
theorem api_integer_level_in_range (rt : Runtime) :
    (∀ (cs : List Character) (o : JSObject) (n : Int), o.get "level" = .number (.fin n) →
      (postCharacters rt cs (some o)).1.status = 201 →
        (postCharacters rt cs (some o)).2 = cs ++ [recordOf o] ∧
          (recordOf o).level = .number (.fin n) ∧ 1 ≤ n ∧ n ≤ 99) ∧
    (∀ (cs : List Character) (id : JSNumber) (o : JSObject) (n : Int),
      o.get "level" = .number (.fin n) → (putCharacter rt cs id (some o)).1.status = 204 →
        (∃ k, k < cs.length ∧ (putCharacter rt cs id (some o)).2 = cs.set k (recordOf o)) ∧
          (recordOf o).level = .number (.fin n) ∧ 1 ≤ n ∧ n ≤ 99) ∧
    (∀ (cs : List Character), ReachableBy rt Request.integerLevel cs →
      ∀ c ∈ cs, IsLevel c.level) := by
  refine ⟨?_, ?_, fun cs h => isLevel_of_reachable h⟩
  · intro cs o n hn hs
    obtain ⟨o', ho', -, -, hlvl, heq⟩ := postCharacters_created hs
    cases ho'
    rw [hn] at hlvl
    exact ⟨by rw [heq], hn, (levelOutOfRange_int_false rt n).1 hlvl⟩
  · intro cs id o n hn hs
    obtain ⟨o', k, ho', -, hk, -, hlvl, heq⟩ := putCharacter_updated hs
    cases ho'
    rw [hn] at hlvl
    obtain ⟨c, hc, -, -⟩ := findIndex_some hk
    exact ⟨⟨k, (List.getElem?_eq_some.1 hc).1, by rw [heq]⟩, hn,
      (levelOutOfRange_int_false rt n).1 hlvl⟩

theorem api_integer_level_in_range_witness :
    (postCharacters sampleRuntime seed (some barret)).2 = seed ++ [recordOf barret] ∧
      (recordOf barret).level = .number (.fin (30 : Int)) ∧ (1 : Int) ≤ 30 ∧ (30 : Int) ≤ 99 :=
  (api_integer_level_in_range sampleRuntime).1 seed barret 30 (by decide) (by decide)

/-- C3 (counterexample): on the seed, API Create with the payload
`{id: 4, name: "Barret"}`, which has no level, responds 201 and stores a record
whose level is `undefined`, not an integer in [1, 99]; the resulting state is
reachable through the API. -/
theorem create_without_level_stored :
    (postCharacters sampleRuntime seed
        (some [("id", .number (.fin 4)), ("name", .string "Barret")])).1.status = 201 ∧
      (postCharacters sampleRuntime seed
        (some [("id", .number (.fin 4)), ("name", .string "Barret")])).2 =
        seed ++ [⟨.number (.fin 4), .string "Barret", .undefined, .undefined, .undefined⟩] ∧
      ¬ IsLevel JSValue.undefined ∧
      Reachable sampleRuntime (handle sampleRuntime seed
        (.create (some [("id", .number (.fin 4)), ("name", .string "Barret")]))).2 := by
  refine ⟨by decide, by decide, ?_, .step _ .seed ?_⟩
  · rintro ⟨n, hn, -⟩
    exact JSValue.noConfusion hn
  · show ∀ kv ∈ [("id", JSValue.number (.fin 4)), ("name", JSValue.string "Barret")],
      kv.2 ≠ JSValue.number .nan
    decide

/-- C4 (amended): for every collection and every payload that API Create
accepts (201), the collection afterwards is the old one with exactly one record
appended at the end (length + 1, every earlier position unchanged), the
appended record carries the payload's id, name, job, weapon and level, and,
when the payload's id is a Number (other than NaN), Get by that id on the new
collection returns the appended record. -/
theorem create_appends (rt : Runtime) (cs : List Character) (body : Option JSObject)
    (h : (postCharacters rt cs body).1.status = 201) :
    ∃ o, body = some o ∧
      (postCharacters rt cs body).2 = cs ++ [recordOf o] ∧
      (postCharacters rt cs body).2.length = cs.length + 1 ∧
      (∀ i, i < cs.length → (postCharacters rt cs body).2[i]? = cs[i]?) ∧
      (postCharacters rt cs body).2[cs.length]? = some (recordOf o) ∧
      recordOf o = ⟨o.get "id", o.get "name", o.get "job", o.get "weapon", o.get "level"⟩ ∧
      (∀ n : JSNumber, o.get "id" = .number n → n ≠ .nan →
        getCharacter (postCharacters rt cs body).2 n =
          (⟨200, .character (recordOf o)⟩, (postCharacters rt cs body).2)) := by
  obtain ⟨o, hbody, -, hany, -, heq⟩ := postCharacters_created h
  refine ⟨o, hbody, by rw [heq], by simp [heq], ?_, by simp [heq], rfl, ?_⟩
  · intro i hi
    rw [heq]
    exact List.getElem?_append_left hi
  · intro n hn hnan
    rw [heq]
    have hfind : (cs ++ [recordOf o]).find? (fun c => strictEq c.id (.number n)) =
        some (recordOf o) := by
      apply find?_of_first (k := cs.length)
      · simp
      · show strictEq (o.get "id") (.number n) = true
        rw [hn]
        exact strictEq_self (by simpa using hnan) rfl
      · intro j d hj hd
        rw [List.getElem?_append_left hj] at hd
        have := List.any_eq_false.1 hany d (List.getElem?_mem hd)
        rw [hn] at this
        have h2 : strictEq d.id (JSValue.number n) = false ∧
            strictEq d.name (o.get "name") = false := by simpa using this
        exact h2.1
    simp only [getCharacter, hfind]

theorem create_appends_witness :
    (postCharacters sampleRuntime seed (some barret)).1.status = 201 ∧
      ∃ o, some barret = some o ∧
      (postCharacters sampleRuntime seed (some barret)).2 = seed ++ [recordOf o] ∧
      (postCharacters sampleRuntime seed (some barret)).2.length = seed.length + 1 ∧
      (∀ i, i < seed.length → (postCharacters sampleRuntime seed (some barret)).2[i]? = seed[i]?) ∧
      (postCharacters sampleRuntime seed (some barret)).2[seed.length]? = some (recordOf o) ∧
      recordOf o = ⟨o.get "id", o.get "name", o.get "job", o.get "weapon", o.get "level"⟩ ∧
      (∀ n : JSNumber, o.get "id" = .number n → n ≠ .nan →
        getCharacter (postCharacters sampleRuntime seed (some barret)).2 n =
          (⟨200, .character (recordOf o)⟩, (postCharacters sampleRuntime seed (some barret)).2)) :=
  ⟨by decide, create_appends sampleRuntime seed (some barret) (by decide)⟩

/-- C4 (counterexample): on the seed, API Create accepts the payload
`{id: "4", name: "Barret", job: "Gunner", weapon: "Gun-arm", level: 30}`, whose
id is a string; `GET /characters/4` on the new collection responds 404, and no
path id at all makes Get return the appended record. -/
theorem create_string_id_not_retrievable :
    (postCharacters sampleRuntime seed (some barretStringId)).1.status = 201 ∧
      (getCharacter (postCharacters sampleRuntime seed (some barretStringId)).2 (.fin 4)).1 =
        ⟨404, .error "Character not found"⟩ ∧
      ¬ ∃ n : JSNumber,
        (getCharacter (postCharacters sampleRuntime seed (some barretStringId)).2 n).1 =
          ⟨200, .character (recordOf barretStringId)⟩ := by
  refine ⟨by decide, by decide, ?_⟩
  rintro ⟨n, hn⟩
  unfold getCharacter at hn
  split at hn
  · simp at hn
  · rename_i c hc
    have h1 : strictEq c.id (.number n) = true := by simpa using List.find?_some hc
    have h2 : c = recordOf barretStringId := by simpa using hn
    rw [h2] at h1
    exact Bool.noConfusion h1

/-- C5 (code bug): from the seed, `POST /characters` with
`{"id": [1], "name": [2], "level": 5}` is accepted; the same non-empty payload
sent again finds a record that has its id and its name, and the handler
responds 201 and appends a second such record instead of responding 400 'ID or
name already exists': `c.id === id || c.name === name` compares arrays by
reference. -/
theorem create_repeated_array_accepted :
    arrayPayload ≠ [] ∧
      (∃ c ∈ (postCharacters sampleRuntime seed (some arrayPayload)).2,
        c.id = arrayPayload.get "id" ∧ c.name = arrayPayload.get "name") ∧
      postCharacters sampleRuntime (postCharacters sampleRuntime seed (some arrayPayload)).2
          (some arrayPayload) =
        (⟨201, .message "Character created"⟩,
          (postCharacters sampleRuntime seed (some arrayPayload)).2 ++ [recordOf arrayPayload]) ∧
      (postCharacters sampleRuntime (postCharacters sampleRuntime seed (some arrayPayload)).2
          (some arrayPayload)).2.length = 5 := by
  refine ⟨by decide, ⟨recordOf arrayPayload, by decide, rfl, rfl⟩, by decide, by decide⟩

/-- What lines 54-59 do reject: for every collection and every non-empty
payload, a record whose id or name is `===` to the payload's (for a parsed
payload: the same primitive value) makes API Create respond 400 'ID or name
already exists' and leave the collection unchanged. -/
theorem postCharacters_rejects_duplicate (rt : Runtime) (cs : List Character) (o : JSObject)
    (ho : o ≠ []) :
    ((∃ c ∈ cs, strictEq c.id (o.get "id") = true ∨ strictEq c.name (o.get "name") = true) →
      postCharacters rt cs (some o) = (⟨400, .error "ID or name already exists"⟩, cs)) ∧
    (bodyParsed (some o) →
      (∃ c ∈ cs, (c.id = o.get "id" ∧ c.id.isObject = false) ∨
        (c.name = o.get "name" ∧ c.name.isObject = false)) →
      postCharacters rt cs (some o) = (⟨400, .error "ID or name already exists"⟩, cs)) := by
  have key : (∃ c ∈ cs, strictEq c.id (o.get "id") = true ∨
      strictEq c.name (o.get "name") = true) →
      postCharacters rt cs (some o) = (⟨400, .error "ID or name already exists"⟩, cs) := by
    intro h
    have hany : cs.any (fun c => strictEq c.id (o.get "id") || strictEq c.name (o.get "name"))
        = true := by
      rw [List.any_eq_true]
      obtain ⟨c, hc, h⟩ := h
      exact ⟨c, hc, by simpa using h⟩
    rw [postCharacters_some rt cs o ho, if_pos hany]
  refine ⟨key, ?_⟩
  rintro hp ⟨c, hc, h⟩
  refine key ⟨c, hc, ?_⟩
  rcases h with ⟨h, hprim⟩ | ⟨h, hprim⟩
  · refine Or.inl ?_
    have hnan : c.id ≠ .number .nan := by rw [h]; exact JSObject.get_ne_nan hp _
    have := strictEq_self hnan hprim
    rwa [h] at this ⊢
  · refine Or.inr ?_
    have hnan : c.name ≠ .number .nan := by rw [h]; exact JSObject.get_ne_nan hp _
    have := strictEq_self hnan hprim
    rwa [h] at this ⊢

theorem postCharacters_threw {rt : Runtime} {cs : List Character} {body : Option JSObject}
    (h : (postCharacters rt cs body).1.status = 500) :
    ∃ o, body = some o ∧ levelOutOfRange rt (o.get "level") = none := by
  by_cases he : bodyIsEmpty body = true
  · rw [postCharacters_empty rt cs body he] at h
    simp at h
  · obtain ⟨o, rfl, ho⟩ := bodyIsEmpty_eq_false.1 (by simpa using he)
    rw [postCharacters_some rt cs o ho] at h
    split at h
    · simp at h
    · split at h
      · rename_i h2
        exact ⟨o, rfl, h2⟩
      · simp at h
      · simp at h

theorem putCharacter_threw {rt : Runtime} {cs : List Character} {id : JSNumber}
    {body : Option JSObject} (h : (putCharacter rt cs id body).1.status = 500) :
    ∃ o, body = some o ∧ levelOutOfRange rt (o.get "level") = none := by
  by_cases he : bodyIsEmpty body = true
  · rw [putCharacter_empty rt cs id body he] at h
    simp at h
  · obtain ⟨o, rfl, ho⟩ := bodyIsEmpty_eq_false.1 (by simpa using he)
    rw [putCharacter_some rt cs id o ho] at h
    split at h
    · simp at h
    · split at h
      · simp at h
      · split at h
        · rename_i h2
          exact ⟨o, rfl, h2⟩
        · simp at h
        · simp at h

/-- C6: for every collection and every payload with an integer level: if
level < 1 or level > 99, API Create and API Update respond with an error (400,
or 404 for Update) and leave the collection unchanged; and for a payload that
passes every other check (non-empty, no id/name clash, and for Update a path
id that matches a record) API Create succeeds (201), respectively API Update
succeeds (204), if and only if 1 <= level <= 99, so that the boundary values 1
and 99 are accepted. -/
theorem level_range_decides (rt : Runtime) (cs : List Character) (o : JSObject) (n : Int)
    (hn : o.get "level" = .number (.fin n)) :
    ((n < 1 ∨ 99 < n) →
      ((postCharacters rt cs (some o)).1.status = 400 ∧ (postCharacters rt cs (some o)).2 = cs) ∧
      ∀ id, ((putCharacter rt cs id (some o)).1.status = 400 ∨
          (putCharacter rt cs id (some o)).1.status = 404) ∧
        (putCharacter rt cs id (some o)).2 = cs) ∧
    (o ≠ [] →
      cs.any (fun c => strictEq c.id (o.get "id") || strictEq c.name (o.get "name")) = false →
      ((postCharacters rt cs (some o)).1.status = 201 ↔ 1 ≤ n ∧ n ≤ 99)) ∧
    (∀ id, o ≠ [] → (∃ c ∈ cs, strictEq c.id (.number id) = true) →
      cs.any (fun c => (strictEq c.id (o.get "id") || strictEq c.name (o.get "name"))
        && !strictEq c.id (.number id)) = false →
      ((putCharacter rt cs id (some o)).1.status = 204 ↔ 1 ≤ n ∧ n ≤ 99)) := by
  have hlvl : levelOutOfRange rt (o.get "level") = some false ↔ 1 ≤ n ∧ n ≤ 99 := by
    rw [hn]; exact levelOutOfRange_int_false rt n
  have hsome : levelOutOfRange rt (o.get "level") ≠ none := by
    rw [hn, levelOutOfRange_int]; simp
  refine ⟨?_, ?_, ?_⟩
  · intro hout
    have hbad : ¬ (1 ≤ n ∧ n ≤ 99) := by omega
    constructor
    · have hrej : (postCharacters rt cs (some o)).1.status ≠ 201 := by
        intro hs
        obtain ⟨o', ho', -, -, h, -⟩ := postCharacters_created hs
        cases ho'
        exact hbad (hlvl.1 h)
      refine ⟨?_, (postCharacters_rejected hrej).2⟩
      rcases (postCharacters_rejected hrej).1 with h | h
      · exact h
      · obtain ⟨o', ho', h'⟩ := postCharacters_threw h
        cases ho'
        exact absurd h' hsome
    · intro id
      have hrej : (putCharacter rt cs id (some o)).1.status ≠ 204 := by
        intro hs
        obtain ⟨o', k, ho', -, -, -, h, -⟩ := putCharacter_updated hs
        cases ho'
        exact hbad (hlvl.1 h)
      refine ⟨?_, (putCharacter_rejected hrej).2⟩
      rcases (putCharacter_rejected hrej).1 with h | h | h
      · exact Or.inl h
      · exact Or.inr h
      · obtain ⟨o', ho', h'⟩ := putCharacter_threw h
        cases ho'
        exact absurd h' hsome
  · intro ho hany
    constructor
    · intro hs
      obtain ⟨o', ho', -, -, h, -⟩ := postCharacters_created hs
      cases ho'
      exact hlvl.1 h
    · intro hr
      rw [postCharacters_accepts rt cs o ho hany (hlvl.2 hr)]
  · intro id ho hm hany
    constructor
    · intro hs
      obtain ⟨o', k, ho', -, -, -, h, -⟩ := putCharacter_updated hs
      cases ho'
      exact hlvl.1 h
    · intro hr
      obtain ⟨c, hc, hcid⟩ := hm
      cases hk : findIndex (fun c => strictEq c.id (.number id)) cs with
      | none =>
        have := findIndex_none.1 hk c hc
        simp only [hcid] at this
        exact Bool.noConfusion this
      | some k =>
        rw [putCharacter_accepts rt cs id o k ho hk hany (hlvl.2 hr)]

theorem level_range_decides_witness :
    tifaUpdate.get "level" = .number (.fin (99 : Int)) ∧
      ((putCharacter sampleRuntime seed (.fin 2) (some tifaUpdate)).1.status = 204 ↔
        (1 : Int) ≤ 99 ∧ (99 : Int) ≤ 99) :=
  ⟨by decide,
    (level_range_decides sampleRuntime seed tifaUpdate 99 (by decide)).2.2 (.fin 2) (by decide)
      (by decide) (by decide)⟩

/-- C7: for every collection, path id and payload for which API Update
succeeds (204): the collection keeps its length; the position `k` of the first
record whose id `===` the path id now holds exactly the record made of the
payload's five fields (a field the payload lacks is `undefined`, nothing is
taken from the old record); every other position is unchanged. -/
theorem update_replaces_in_place (rt : Runtime) (cs : List Character) (id : JSNumber)
    (body : Option JSObject) (h : (putCharacter rt cs id body).1.status = 204) :
    ∃ (o : JSObject) (k : Nat), body = some o ∧ k < cs.length ∧
      (∃ c, cs[k]? = some c ∧ strictEq c.id (.number id) = true) ∧
      (∀ (j : Nat) (d : Character), j < k → cs[j]? = some d →
        strictEq d.id (.number id) = false) ∧
      (putCharacter rt cs id body).2.length = cs.length ∧
      (putCharacter rt cs id body).2[k]? =
        some ⟨o.get "id", o.get "name", o.get "job", o.get "weapon", o.get "level"⟩ ∧
      (∀ key, o.lookup key = none → o.get key = .undefined) ∧
      (∀ j, j ≠ k → (putCharacter rt cs id body).2[j]? = cs[j]?) := by
  obtain ⟨o, k, hbody, -, hk, -, -, heq⟩ := putCharacter_updated h
  obtain ⟨c, hc, hp, hfirst⟩ := findIndex_some hk
  have hlt : k < cs.length := (List.getElem?_eq_some.1 hc).1
  refine ⟨o, k, hbody, hlt, ⟨c, hc, hp⟩, hfirst, by simp [heq], ?_,
    fun key hkey => JSObject.get_of_lookup_none hkey, ?_⟩
  · rw [heq, List.getElem?_set, if_pos rfl, if_pos hlt]
    rfl
  · intro j hj
    rw [heq]
    exact List.getElem?_set_ne (Ne.symm hj)

theorem update_replaces_in_place_witness :
    (putCharacter sampleRuntime seed (.fin 2) (some tifaUpdate)).1.status = 204 ∧
    ∃ (o : JSObject) (k : Nat), some tifaUpdate = some o ∧ k < seed.length ∧
      (∃ c, seed[k]? = some c ∧ strictEq c.id (.number (.fin 2)) = true) ∧
      (∀ (j : Nat) (d : Character), j < k → seed[j]? = some d →
        strictEq d.id (.number (.fin 2)) = false) ∧
      (putCharacter sampleRuntime seed (.fin 2) (some tifaUpdate)).2.length = seed.length ∧
      (putCharacter sampleRuntime seed (.fin 2) (some tifaUpdate)).2[k]? =
        some ⟨o.get "id", o.get "name", o.get "job", o.get "weapon", o.get "level"⟩ ∧
      (∀ key, o.lookup key = none → o.get key = .undefined) ∧
      (∀ j, j ≠ k → (putCharacter sampleRuntime seed (.fin 2) (some tifaUpdate)).2[j]? = seed[j]?) :=
  ⟨by decide, update_replaces_in_place sampleRuntime seed (.fin 2) (some tifaUpdate) (by decide)⟩

/-- C8: for every collection (with or without duplicate ids), path id and
payload with an integer id for which API Update succeeds (204), a subsequent
Get by the payload's id returns exactly the payload's record, also when the
payload's id differs from the path id. -/
theorem update_then_get (rt : Runtime) (cs : List Character) (id : JSNumber) (o : JSObject)
    (n : Int) (hid : o.get "id" = .number (.fin n))
    (h : (putCharacter rt cs id (some o)).1.status = 204) :
    getCharacter (putCharacter rt cs id (some o)).2 (.fin n) =
      (⟨200, .character (recordOf o)⟩, (putCharacter rt cs id (some o)).2) := by
  obtain ⟨o', k, ho', -, hk, hany, -, heq⟩ := putCharacter_updated h
  cases ho'
  obtain ⟨c, hc, -, hfirst⟩ := findIndex_some hk
  have hlt : k < cs.length := (List.getElem?_eq_some.1 hc).1
  have hfind : (cs.set k (recordOf o)).find? (fun c => strictEq c.id (.number (.fin n))) =
      some (recordOf o) := by
    apply find?_of_first (k := k)
    · rw [List.getElem?_set, if_pos rfl, if_pos hlt]
    · show strictEq (o.get "id") (.number (.fin n)) = true
      rw [hid]
      exact strictEq_self (by simp) rfl
    · intro j d hj hd
      rw [List.getElem?_set_ne (by omega)] at hd
      have h1 : strictEq d.id (.number id) = false := hfirst j d hj hd
      have h2 := List.any_eq_false.1 hany d (List.getElem?_mem hd)
      rw [hid] at h2
      cases hs : strictEq d.id (.number (.fin n)) with
      | false => rfl
      | true => simp [hs, h1] at h2
  rw [heq]
  simp only [getCharacter, hfind]

theorem update_then_get_witness :
    tifaUpdate.get "id" = .number (.fin (2 : Int)) ∧
      (putCharacter sampleRuntime seed (.fin 2) (some tifaUpdate)).1 = ⟨204, .empty⟩ ∧
      (putCharacter sampleRuntime seed (.fin 2) (some tifaUpdate)).1.status = 204 ∧
      getCharacter (putCharacter sampleRuntime seed (.fin 2) (some tifaUpdate)).2 (.fin (2 : Int)) =
        (⟨200, .character (recordOf tifaUpdate)⟩,
          (putCharacter sampleRuntime seed (.fin 2) (some tifaUpdate)).2) :=
  ⟨by decide, by decide, by decide,
    update_then_get sampleRuntime seed (.fin 2) tifaUpdate 2 (by decide) (by decide)⟩

/-- What lines 90-95 do: for every collection, every non-empty payload and
every path id that matches some record, API Update responds 400 'ID or name
already exists' if and only if some record whose id is not `===` to the path id
has an id or a name `===` to the payload's. -/
theorem putCharacter_duplicate_iff (rt : Runtime) (cs : List Character) (id : JSNumber)
    (o : JSObject) (ho : o ≠ []) (hm : ∃ c ∈ cs, strictEq c.id (.number id) = true) :
    ((putCharacter rt cs id (some o)).1 = ⟨400, .error "ID or name already exists"⟩ ↔
      ∃ c ∈ cs, strictEq c.id (.number id) = false ∧
        (strictEq c.id (o.get "id") = true ∨ strictEq c.name (o.get "name") = true)) ∧
    ((∀ c ∈ cs, strictEq c.id (o.get "id") = true ∨ strictEq c.name (o.get "name") = true →
        strictEq c.id (.number id) = true) →
      (putCharacter rt cs id (some o)).1 ≠ ⟨400, .error "ID or name already exists"⟩) := by
  obtain ⟨c0, hc0, hcid⟩ := hm
  obtain ⟨k, hk⟩ : ∃ k, findIndex (fun c => strictEq c.id (.number id)) cs = some k := by
    cases hk : findIndex (fun c => strictEq c.id (.number id)) cs with
    | none =>
      have := findIndex_none.1 hk c0 hc0
      simp only [hcid] at this
      exact Bool.noConfusion this
    | some k => exact ⟨k, rfl⟩
  have hiff : (putCharacter rt cs id (some o)).1 = ⟨400, .error "ID or name already exists"⟩ ↔
      ∃ c ∈ cs, strictEq c.id (.number id) = false ∧
        (strictEq c.id (o.get "id") = true ∨ strictEq c.name (o.get "name") = true) := by
    rw [putCharacter_some rt cs id o ho, hk]
    simp only
    constructor
    · intro h
      split at h
      · rename_i hany
        obtain ⟨c, hc, hp⟩ := List.any_eq_true.1 hany
        simp only [Bool.and_eq_true, Bool.or_eq_true, Bool.not_eq_eq_eq_not, Bool.not_true] at hp
        exact ⟨c, hc, hp.2, hp.1⟩
      · split at h <;> simp at h
    · rintro ⟨c, hc, h1, h2⟩
      have hany : cs.any (fun c => (strictEq c.id (o.get "id") || strictEq c.name (o.get "name"))
          && !strictEq c.id (.number id)) = true := by
        rw [List.any_eq_true]
        exact ⟨c, hc, by simpa [h1] using h2⟩
      rw [if_pos hany]
  refine ⟨hiff, ?_⟩
  intro hown hdup
  obtain ⟨c, hc, h1, h2⟩ := hiff.1 hdup
  rw [hown c hc h2] at h1
  exact Bool.noConfusion h1

/-- C9 (code bug): from the seed, `POST /characters` with
`{"id": [1], "name": [2], "level": 5}` is accepted. Then `PUT /characters/2`
with the non-empty payload `{"id": 2, "name": [2], "level": 5}`, whose path id
matches the second seed record, finds another record (the one just created,
whose id is not 2) that has the payload's name, and the handler responds 204
and writes the payload instead of responding 400 'ID or name already exists':
`c.name === name` compares arrays by reference. -/
theorem update_repeated_array_name_accepted :
    tifaArrayName ≠ [] ∧
      (∃ c ∈ (postCharacters sampleRuntime seed (some arrayPayload)).2,
        strictEq c.id (.number (.fin 2)) = true) ∧
      (∃ c ∈ (postCharacters sampleRuntime seed (some arrayPayload)).2,
        c.id ≠ .number (.fin 2) ∧ c.name = tifaArrayName.get "name") ∧
      putCharacter sampleRuntime (postCharacters sampleRuntime seed (some arrayPayload)).2
          (.fin 2) (some tifaArrayName) =
        (⟨204, .empty⟩,
          (postCharacters sampleRuntime seed (some arrayPayload)).2.set 1
            (recordOf tifaArrayName)) ∧
      ((putCharacter sampleRuntime (postCharacters sampleRuntime seed (some arrayPayload)).2
          (.fin 2) (some tifaArrayName)).2[1]?.map Character.name =
        some (.array [.number (.fin 2)])) ∧
      ((putCharacter sampleRuntime (postCharacters sampleRuntime seed (some arrayPayload)).2
          (.fin 2) (some tifaArrayName)).2[3]?.map Character.name =
        some (.array [.number (.fin 2)])) := by
  refine ⟨by decide, by decide, ⟨recordOf arrayPayload, by decide, by decide, rfl⟩, by decide,
    by decide, by decide⟩

/-- C10: for every collection, every non-empty payload and every path id that
matches no record, API Update responds 404 with error 'Character does not
exist' and leaves the collection unchanged, whatever the payload's id, name and
level are: the not-found check precedes the duplicate and level checks. -/
theorem update_missing_not_found (rt : Runtime) (cs : List Character) (id : JSNumber)
    (o : JSObject) (ho : o ≠ []) (hm : ∀ c ∈ cs, strictEq c.id (.number id) = false) :
    putCharacter rt cs id (some o) = (⟨404, .error "Character does not exist"⟩, cs) := by
  rw [putCharacter_some rt cs id o ho, findIndex_none.2 hm]

theorem update_missing_not_found_witness :
    clashingId ≠ [] ∧ (∀ c ∈ seed, strictEq c.id (.number (.fin 99)) = false) ∧
      putCharacter sampleRuntime seed (.fin 99) (some clashingId) =
        (⟨404, .error "Character does not exist"⟩, seed) :=
  ⟨by decide, by decide,
    update_missing_not_found sampleRuntime seed (.fin 99) clashingId (by decide) (by decide)⟩

/-- C11: for every collection and path id: if no record has that id, API
Delete responds 404 and leaves the collection unchanged; otherwise it responds
204 and the new collection is the old one without the first record that has
that id: one record fewer, the positions before it unchanged and the positions
after it moved up by one, in the same order. -/
theorem delete_removes_first (cs : List Character) (id : JSNumber) :
    ((∀ c ∈ cs, strictEq c.id (.number id) = false) →
      deleteCharacter cs id = (⟨404, .error "Character does not exist"⟩, cs)) ∧
    ((∃ c ∈ cs, strictEq c.id (.number id) = true) →
      ∃ (k : Nat) (c : Character), cs[k]? = some c ∧ strictEq c.id (.number id) = true ∧
        (∀ (j : Nat) (d : Character), j < k → cs[j]? = some d →
          strictEq d.id (.number id) = false) ∧
        deleteCharacter cs id = (⟨204, .empty⟩, cs.eraseIdx k) ∧
        (deleteCharacter cs id).2.length + 1 = cs.length ∧
        (∀ j, j < k → (deleteCharacter cs id).2[j]? = cs[j]?) ∧
        (∀ j, k ≤ j → (deleteCharacter cs id).2[j]? = cs[j + 1]?)) := by
  constructor
  · intro h
    simp only [deleteCharacter, findIndex_none.2 h]
  · intro h
    obtain ⟨k, hk⟩ := findIndex_isSome h
    obtain ⟨c, hc, hp, hfirst⟩ := findIndex_some hk
    have hlt : k < cs.length := (List.getElem?_eq_some.1 hc).1
    have heq : deleteCharacter cs id = (⟨204, .empty⟩, cs.eraseIdx k) := by
      simp only [deleteCharacter, hk]
    refine ⟨k, c, hc, hp, hfirst, heq, ?_, ?_, ?_⟩
    · rw [heq]
      simp only [List.length_eraseIdx, if_pos hlt]
      omega
    · intro j hj
      rw [heq]
      exact List.getElem?_eraseIdx_of_lt cs k j hj
    · intro j hj
      rw [heq]
      exact List.getElem?_eraseIdx_of_ge cs k j hj

theorem delete_removes_first_witness :
    (∃ c ∈ seed, strictEq c.id (.number (.fin 2)) = true) ∧
      ∃ (k : Nat) (c : Character), seed[k]? = some c ∧
        strictEq c.id (.number (.fin 2)) = true ∧
        (∀ (j : Nat) (d : Character), j < k → seed[j]? = some d →
          strictEq d.id (.number (.fin 2)) = false) ∧
        deleteCharacter seed (.fin 2) = (⟨204, .empty⟩, seed.eraseIdx k) ∧
        (deleteCharacter seed (.fin 2)).2.length + 1 = seed.length ∧
        (∀ j, j < k → (deleteCharacter seed (.fin 2)).2[j]? = seed[j]?) ∧
        (∀ j, k ≤ j → (deleteCharacter seed (.fin 2)).2[j]? = seed[j + 1]?) :=
  ⟨by decide, (delete_removes_first seed (.fin 2)).2 (by decide)⟩

/-- C12 (amended): for every collection and every path id that some record has
and that occurs at one position only, API Delete responds 204, no record of the
new collection has that id, a subsequent Get for that id responds 404
'Character not found', and a second identical Delete responds 404 and leaves
the collection as the first Delete left it. -/
theorem delete_then_gone (cs : List Character) (id : JSNumber)
    (hm : ∃ c ∈ cs, strictEq c.id (.number id) = true) (hu : AtMostOnce id cs) :
    (deleteCharacter cs id).1 = ⟨204, .empty⟩ ∧
      (∀ c ∈ (deleteCharacter cs id).2, strictEq c.id (.number id) = false) ∧
      getCharacter (deleteCharacter cs id).2 id =
        (⟨404, .error "Character not found"⟩, (deleteCharacter cs id).2) ∧
      deleteCharacter (deleteCharacter cs id).2 id =
        (⟨404, .error "Character does not exist"⟩, (deleteCharacter cs id).2) := by
  obtain ⟨k, hk⟩ := findIndex_isSome hm
  obtain ⟨c, hc, hp, -⟩ := findIndex_some hk
  have heq : deleteCharacter cs id = (⟨204, .empty⟩, cs.eraseIdx k) := by
    simp only [deleteCharacter, hk]
  have hgone : ∀ d ∈ cs.eraseIdx k, strictEq d.id (.number id) = false := by
    intro d hd
    obtain ⟨j, hj⟩ := List.getElem?_of_mem hd
    cases hs : strictEq d.id (.number id) with
    | false => rfl
    | true =>
      rw [List.getElem?_eraseIdx] at hj
      split at hj
      · have := hu j k d c hj hc hs hp
        omega
      · have := hu (j + 1) k d c hj hc hs hp
        omega
  rw [heq]
  refine ⟨rfl, hgone, ?_, ?_⟩
  · have hnone : (cs.eraseIdx k).find? (fun c => strictEq c.id (.number id)) = none := by
      rw [List.find?_eq_none]
      intro d hd
      simp [hgone d hd]
    simp only [getCharacter, hnone]
  · simp only [deleteCharacter, findIndex_none.2 hgone]

theorem delete_then_gone_witness :
    (∃ c ∈ seed, strictEq c.id (.number (.fin 2)) = true) ∧ AtMostOnce (.fin 2) seed ∧
      ((deleteCharacter seed (.fin 2)).1 = ⟨204, .empty⟩ ∧
      (∀ c ∈ (deleteCharacter seed (.fin 2)).2, strictEq c.id (.number (.fin 2)) = false) ∧
      getCharacter (deleteCharacter seed (.fin 2)).2 (.fin 2) =
        (⟨404, .error "Character not found"⟩, (deleteCharacter seed (.fin 2)).2) ∧
      deleteCharacter (deleteCharacter seed (.fin 2)).2 (.fin 2) =
        (⟨404, .error "Character does not exist"⟩, (deleteCharacter seed (.fin 2)).2)) :=
  have hu : AtMostOnce (.fin 2) seed := by
    intro i j a b ha hb hpa hpb
    match i, j with
    | 0, _ => simp [seed] at ha; subst ha; exact absurd hpa (by decide)
    | 2, _ => simp [seed] at ha; subst ha; exact absurd hpa (by decide)
    | _, 0 => simp [seed] at hb; subst hb; exact absurd hpb (by decide)
    | _, 2 => simp [seed] at hb; subst hb; exact absurd hpb (by decide)
    | 1, 1 => rfl
    | _ + 3, _ => simp [seed] at ha
    | _, _ + 3 => simp [seed] at hb
  ⟨by decide, hu, delete_then_gone seed (.fin 2) (by decide) hu⟩

/-- C12 (counterexample): after the form submission `zackForm` on the seed, two
records have id 1. `DELETE /characters/1` responds 204, yet `GET /characters/1`
on the new collection responds 200 with the submitted record, and a second
`DELETE /characters/1` responds 204 again and removes that record too. -/
theorem delete_leaves_duplicate :
    ReachableWithForms sampleRuntime (postNew sampleRuntime seed (some zackForm)).2 ∧
      (deleteCharacter (postNew sampleRuntime seed (some zackForm)).2 (.fin 1)).1 =
        ⟨204, .empty⟩ ∧
      (getCharacter (deleteCharacter (postNew sampleRuntime seed (some zackForm)).2 (.fin 1)).2
          (.fin 1)).1 =
        ⟨200, .character ⟨.number (.fin 1), .string "Zack Fair", .string "Soldier",
          .string "Buster sword", .number (.fin 30)⟩⟩ ∧
      (deleteCharacter
          (deleteCharacter (postNew sampleRuntime seed (some zackForm)).2 (.fin 1)).2
          (.fin 1)).1 = ⟨204, .empty⟩ ∧
      (deleteCharacter
          (deleteCharacter (postNew sampleRuntime seed (some zackForm)).2 (.fin 1)).2
          (.fin 1)).2 ≠
        (deleteCharacter (postNew sampleRuntime seed (some zackForm)).2 (.fin 1)).2 :=
  ⟨.form _ .seed, by decide, by decide, by decide, by decide⟩

theorem tifaUpdate_parsed : bodyParsed (some tifaUpdate) := by
  show ∀ kv ∈ tifaUpdate, kv.2 ≠ JSValue.number .nan
  decide

/-- C13 (amended): API Update is idempotent on the collection state whenever
the payload's id or name is a primitive value, or the path id occurs at one
position of the collection at most: for every such collection, path id and
(parsed) payload, applying the same Update request twice in a row leaves the collection
equal to the collection after applying it once, whether the first application
succeeded or failed, and also when the payload changes the record's id. -/
theorem update_idempotent (rt : Runtime) (cs : List Character) (id : JSNumber)
    (body : Option JSObject) (hparsed : bodyParsed body)
    (hcond : ((body.getD []).get "id").isObject = false ∨
      ((body.getD []).get "name").isObject = false ∨ AtMostOnce id cs) :
    (putCharacter rt (putCharacter rt cs id body).2 id body).2 =
      (putCharacter rt cs id body).2 := by
  by_cases hs : (putCharacter rt cs id body).1.status = 204
  · obtain ⟨o, k, rfl, ho, hk, -, -, heq⟩ := putCharacter_updated hs
    obtain ⟨c, hc, hpc, hfirst⟩ := findIndex_some hk
    have hlt : k < cs.length := (List.getElem?_eq_some.1 hc).1
    rw [heq]
    show (putCharacter rt (cs.set k (recordOf o)) id (some o)).2 = cs.set k (recordOf o)
    by_cases hs2 : (putCharacter rt (cs.set k (recordOf o)) id (some o)).1.status = 204
    · obtain ⟨o', k', ho', -, hk', hany', -, heq'⟩ := putCharacter_updated hs2
      cases ho'
      rw [heq']
      show (cs.set k (recordOf o)).set k' (recordOf o) = cs.set k (recordOf o)
      obtain ⟨c', hc', hpc', hfirst'⟩ := findIndex_some hk'
      have hk_new : (cs.set k (recordOf o))[k]? = some (recordOf o) := by
        rw [List.getElem?_set, if_pos rfl, if_pos hlt]
      have hdup : ∀ x ∈ cs.set k (recordOf o),
          strictEq x.id (o.get "id") = true ∨ strictEq x.name (o.get "name") = true →
            strictEq x.id (JSValue.number id) = true := by
        have := List.any_eq_false.1 hany'
        simpa using this
      have hkk : k' = k := by
        rcases Nat.lt_trichotomy k' k with hlt' | heq'' | hgt'
        · rw [List.getElem?_set_ne (by omega)] at hc'
          rw [hfirst k' c' hlt' hc'] at hpc'
          exact Bool.noConfusion hpc'
        · exact heq''
        · exfalso
          have hunmatched : strictEq (recordOf o).id (.number id) = false :=
            hfirst' k (recordOf o) hgt' hk_new
          have hc'old : cs[k']? = some c' := by
            rw [List.getElem?_set_ne (by omega)] at hc'
            exact hc'
          rcases hcond with hprim | hprim | honce
          · have hself : strictEq (recordOf o).id (o.get "id") = true :=
              strictEq_self (JSObject.get_ne_nan hparsed "id") hprim
            rw [hdup (recordOf o) (List.getElem?_mem hk_new) (Or.inl hself)] at hunmatched
            exact Bool.noConfusion hunmatched
          · have hself : strictEq (recordOf o).name (o.get "name") = true :=
              strictEq_self (JSObject.get_ne_nan hparsed "name") hprim
            rw [hdup (recordOf o) (List.getElem?_mem hk_new) (Or.inr hself)] at hunmatched
            exact Bool.noConfusion hunmatched
          · have := honce k' k c' c hc'old hc hpc' hpc
            omega
      rw [hkk, List.set_set]
    · exact (putCharacter_rejected hs2).2
  · have h2 := (putCharacter_rejected hs).2
    rw [h2]
    exact h2

theorem update_idempotent_witness :
    bodyParsed (some tifaUpdate) ∧
      ((((some tifaUpdate).getD []).get "id").isObject = false ∨
        (((some tifaUpdate).getD []).get "name").isObject = false ∨ AtMostOnce (.fin 2) seed) ∧
      (putCharacter sampleRuntime
          (putCharacter sampleRuntime seed (.fin 2) (some tifaUpdate)).2 (.fin 2)
          (some tifaUpdate)).2 =
        (putCharacter sampleRuntime seed (.fin 2) (some tifaUpdate)).2 :=
  ⟨tifaUpdate_parsed, Or.inl (by decide),
    update_idempotent sampleRuntime seed (.fin 2) (some tifaUpdate) tifaUpdate_parsed
      (Or.inl (by decide))⟩

/-- C13 (counterexample): after the form submission `zackForm` on the seed, two
records have id 1. `PUT /characters/1` with `{"id": [1], "name": [2], "level": 5}`
responds 204 and replaces the first of them; the same request again responds
204 too, because `===` never holds between two arrays, and replaces the second
one, so the collection after two requests differs from the collection after
one. -/
theorem update_twice_differs :
    (putCharacter sampleRuntime (postNew sampleRuntime seed (some zackForm)).2 (.fin 1)
        (some arrayPayload)).1 = ⟨204, .empty⟩ ∧
      (putCharacter sampleRuntime (postNew sampleRuntime seed (some zackForm)).2 (.fin 1)
        (some arrayPayload)).2[3]? =
        some ⟨.number (.fin 1), .string "Zack Fair", .string "Soldier",
          .string "Buster sword", .number (.fin 30)⟩ ∧
      (putCharacter sampleRuntime
        (putCharacter sampleRuntime (postNew sampleRuntime seed (some zackForm)).2 (.fin 1)
          (some arrayPayload)).2 (.fin 1) (some arrayPayload)).1 = ⟨204, .empty⟩ ∧
      (putCharacter sampleRuntime
        (putCharacter sampleRuntime (postNew sampleRuntime seed (some zackForm)).2 (.fin 1)
          (some arrayPayload)).2 (.fin 1) (some arrayPayload)).2[3]? =
        some (recordOf arrayPayload) ∧
      (putCharacter sampleRuntime
        (putCharacter sampleRuntime (postNew sampleRuntime seed (some zackForm)).2 (.fin 1)
          (some arrayPayload)).2 (.fin 1) (some arrayPayload)).2 ≠
        (putCharacter sampleRuntime (postNew sampleRuntime seed (some zackForm)).2 (.fin 1)
          (some arrayPayload)).2 := by
  refine ⟨by decide, by decide, by decide, by decide, by decide⟩

/-- C14: for every collection and path id, Get by id returns the first record
(lowest position) whose id is the given id when there is one, and responds 404
'Character not found' if and only if no record has that id; List returns the
whole collection in its current order; neither changes the collection. -/
theorem get_returns_first (cs : List Character) (id : JSNumber) :
    ((∃ c ∈ cs, strictEq c.id (.number id) = true) →
      ∃ (k : Nat) (c : Character), cs[k]? = some c ∧ strictEq c.id (.number id) = true ∧
        (∀ (j : Nat) (d : Character), j < k → cs[j]? = some d →
          strictEq d.id (.number id) = false) ∧
        getCharacter cs id = (⟨200, .character c⟩, cs)) ∧
    ((getCharacter cs id).1 = ⟨404, .error "Character not found"⟩ ↔
      ∀ c ∈ cs, strictEq c.id (.number id) = false) ∧
    (getCharacter cs id).2 = cs ∧
    getCharacters cs = (⟨200, .characters cs⟩, cs) := by
  refine ⟨?_, ?_, ?_, rfl⟩
  · intro h
    obtain ⟨k, hk⟩ := findIndex_isSome h
    obtain ⟨c, hc, hp, hfirst⟩ := findIndex_some hk
    refine ⟨k, c, hc, hp, hfirst, ?_⟩
    have hfind : cs.find? (fun c => strictEq c.id (.number id)) = some c :=
      find?_of_first hc hp hfirst
    simp only [getCharacter, hfind]
  · unfold getCharacter
    split
    · rename_i hnone
      have := List.find?_eq_none.1 hnone
      simpa using this
    · rename_i c hc
      constructor
      · intro h
        simp at h
      · intro h
        have h1 := List.find?_some hc
        have h2 := h c (List.mem_of_find?_eq_some hc)
        simp only [h2] at h1
        exact Bool.noConfusion h1
  · unfold getCharacter
    split <;> rfl

theorem get_returns_first_witness :
    (∃ c ∈ seed, strictEq c.id (.number (.fin 3)) = true) ∧
      ∃ (k : Nat) (c : Character), seed[k]? = some c ∧
        strictEq c.id (.number (.fin 3)) = true ∧
        (∀ (j : Nat) (d : Character), j < k → seed[j]? = some d →
          strictEq d.id (.number (.fin 3)) = false) ∧
        getCharacter seed (.fin 3) = (⟨200, .character c⟩, seed) :=
  ⟨by decide, (get_returns_first seed (.fin 3)).1 (by decide)⟩

/-- C15 (amended): for every collection and every form submission
(`POST /new`) whose body is present and whose id and level convert to numbers,
which every primitive value does, the handler responds with a redirect to
`/list` and the collection afterwards is the old one with one record appended,
whose id and level are the submitted values converted to numbers and whose
name, job and weapon are as submitted; nothing is checked. Consequently (for a
runtime that reads "1" as 1 and "0" as 0) the submission `cloudForm` on the
seed leaves two records with the same id, two with the same name, and a record
whose level is outside [1, 99]. -/
theorem form_appends_unchecked (rt : Runtime) (cs : List Character) (o : JSObject) :
    (∀ (n m : JSNumber), toNumber rt (o.get "id") = some n →
      toNumber rt (o.get "level") = some m →
      postNew rt cs (some o) = (⟨302, .redirect "/list"⟩,
        cs ++ [⟨.number n, o.get "name", o.get "job", o.get "weapon", .number m⟩])) ∧
    ((o.get "id").isObject = false → (o.get "level").isObject = false →
      ∃ (n m : JSNumber), toNumber rt (o.get "id") = some n ∧
        toNumber rt (o.get "level") = some m ∧
        postNew rt cs (some o) = (⟨302, .redirect "/list"⟩,
          cs ++ [⟨.number n, o.get "name", o.get "job", o.get "weapon", .number m⟩])) ∧
    (rt.stringToNumber "1" = .fin 1 → rt.stringToNumber "0" = .fin 0 →
      (postNew rt seed (some cloudForm)).1 = ⟨302, .redirect "/list"⟩ ∧
      ¬ DistinctOn Character.id (postNew rt seed (some cloudForm)).2 ∧
      ¬ DistinctOn Character.name (postNew rt seed (some cloudForm)).2 ∧
      ∃ c ∈ (postNew rt seed (some cloudForm)).2, c.level = .number (.fin 0) ∧
        ¬ IsLevel c.level ∧ levelOutOfRange rt c.level = some true) := by
  have key : ∀ (n m : JSNumber), toNumber rt (o.get "id") = some n →
      toNumber rt (o.get "level") = some m →
      postNew rt cs (some o) = (⟨302, .redirect "/list"⟩,
        cs ++ [⟨.number n, o.get "name", o.get "job", o.get "weapon", .number m⟩]) := by
    intro n m hn hm
    simp only [postNew, hn, hm]
  refine ⟨key, ?_, ?_⟩
  · intro hid hlevel
    obtain ⟨n, hn⟩ := toNumber_of_primitive rt hid
    obtain ⟨m, hm⟩ := toNumber_of_primitive rt hlevel
    exact ⟨n, m, hn, hm, key n m hn hm⟩
  · intro h1 h0
    have hstate : postNew rt seed (some cloudForm) = (⟨302, .redirect "/list"⟩,
        seed ++ [⟨.number (.fin 1), .string "Cloud Strife", .string "Soldier",
          .string "Buster sword", .number (.fin 0)⟩]) := by
      have e1 : toNumber rt (cloudForm.get "id") = some (.fin 1) := congrArg some h1
      have e0 : toNumber rt (cloudForm.get "level") = some (.fin 0) := congrArg some h0
      simp only [postNew, e1, e0]
      rfl
    rw [hstate]
    refine ⟨rfl, ?_, ?_, ?_⟩
    · intro h
      exact h 0 3 ⟨.number (.fin 1), .string "Cloud Strife", .string "Soldier",
        .string "Buster sword", .number (.fin 25)⟩ ⟨.number (.fin 1), .string "Cloud Strife",
        .string "Soldier", .string "Buster sword", .number (.fin 0)⟩ (by decide) (by decide)
        (by decide) rfl
    · intro h
      exact h 0 3 ⟨.number (.fin 1), .string "Cloud Strife", .string "Soldier",
        .string "Buster sword", .number (.fin 25)⟩ ⟨.number (.fin 1), .string "Cloud Strife",
        .string "Soldier", .string "Buster sword", .number (.fin 0)⟩ (by decide) (by decide)
        (by decide) rfl
    · refine ⟨⟨.number (.fin 1), .string "Cloud Strife", .string "Soldier",
        .string "Buster sword", .number (.fin 0)⟩, by simp, rfl, ?_, ?_⟩
      · rintro ⟨n, hn, h1n, -⟩
        simp only [JSValue.number.injEq, JSNumber.fin.injEq] at hn
        have : (n : ℚ) = 0 := hn.symm
        have : n = 0 := by exact_mod_cast this
        omega
      · have := levelOutOfRange_int rt 0
        simpa using this

theorem form_appends_unchecked_witness :
    sampleRuntime.stringToNumber "1" = .fin 1 ∧ sampleRuntime.stringToNumber "0" = .fin 0 ∧
      ((postNew sampleRuntime seed (some cloudForm)).1 = ⟨302, .redirect "/list"⟩ ∧
      ¬ DistinctOn Character.id (postNew sampleRuntime seed (some cloudForm)).2 ∧
      ¬ DistinctOn Character.name (postNew sampleRuntime seed (some cloudForm)).2 ∧
      ∃ c ∈ (postNew sampleRuntime seed (some cloudForm)).2, c.level = .number (.fin 0) ∧
        ¬ IsLevel c.level ∧ levelOutOfRange sampleRuntime c.level = some true) :=
  ⟨by decide, by decide,
    (form_appends_unchecked sampleRuntime seed cloudForm).2.2 (by decide) (by decide)⟩

/-- C15 (counterexample): `POST /new` can fail. With an absent body the
destructuring of line 146 throws, and with the body `{"id": {"toString": 0}}`
the call `Number(id)` of line 150 throws; either way the response is 500, not a
redirect, and nothing is appended. -/
theorem form_submission_throws :
    postNew sampleRuntime seed none = (⟨500, .errorPage⟩, seed) ∧
      postNew sampleRuntime seed (some shadowedToString) = (⟨500, .errorPage⟩, seed) := by
  refine ⟨by decide, by decide⟩

/-- C16: for every collection and every non-empty payload without a level
field, `level < 1` and `level > 99` are both false, so the level check does not
reject: API Create succeeds whenever no record has the payload's id or name,
API Update on a path id that matches a record succeeds whenever the duplicate
test finds nothing, and the record stored has no level (`undefined`). -/
theorem absent_level_accepted (rt : Runtime) (cs : List Character) (o : JSObject)
    (ho : o ≠ []) (hno : o.lookup "level" = none) :
    ltConst rt (o.get "level") 1 = some false ∧ gtConst rt (o.get "level") 99 = some false ∧
    (recordOf o).level = .undefined ∧
    (cs.any (fun c => strictEq c.id (o.get "id") || strictEq c.name (o.get "name")) = false →
      postCharacters rt cs (some o) =
        (⟨201, .message "Character created"⟩, cs ++ [recordOf o])) ∧
    (∀ id, (∃ c ∈ cs, strictEq c.id (.number id) = true) →
      cs.any (fun c => (strictEq c.id (o.get "id") || strictEq c.name (o.get "name"))
        && !strictEq c.id (.number id)) = false →
      (putCharacter rt cs id (some o)).1 = ⟨204, .empty⟩ ∧
        ∃ k, k < cs.length ∧ (putCharacter rt cs id (some o)).2 = cs.set k (recordOf o)) := by
  have hlevel : o.get "level" = .undefined := JSObject.get_of_lookup_none hno
  have hlt : ltConst rt (o.get "level") 1 = some false := by
    rw [hlevel]; rfl
  have hgt : gtConst rt (o.get "level") 99 = some false := by
    rw [hlevel]; rfl
  have hin : levelOutOfRange rt (o.get "level") = some false := by
    simp [levelOutOfRange, hlt, hgt]
  refine ⟨hlt, hgt, hlevel, ?_, ?_⟩
  · intro hany
    exact postCharacters_accepts rt cs o ho hany hin
  · intro id hm hany
    obtain ⟨k, hk⟩ := findIndex_isSome hm
    obtain ⟨c, hc, -, -⟩ := findIndex_some hk
    have heq : putCharacter rt cs id (some o) = (⟨204, .empty⟩, cs.set k (recordOf o)) :=
      putCharacter_accepts rt cs id o k ho hk hany hin
    rw [heq]
    exact ⟨rfl, k, (List.getElem?_eq_some.1 hc).1, rfl⟩

theorem absent_level_accepted_witness :
    noLevel ≠ [] ∧ noLevel.lookup "level" = none ∧
      (ltConst sampleRuntime (noLevel.get "level") 1 = some false ∧
        gtConst sampleRuntime (noLevel.get "level") 99 = some false ∧
        (recordOf noLevel).level = .undefined) ∧
      postCharacters sampleRuntime seed (some noLevel) =
        (⟨201, .message "Character created"⟩, seed ++ [recordOf noLevel]) :=
  ⟨by decide, by decide,
    ⟨(absent_level_accepted sampleRuntime seed noLevel (by decide) (by decide)).1,
      (absent_level_accepted sampleRuntime seed noLevel (by decide) (by decide)).2.1,
      (absent_level_accepted sampleRuntime seed noLevel (by decide) (by decide)).2.2.1⟩,
    (absent_level_accepted sampleRuntime seed noLevel (by decide) (by decide)).2.2.2.1
      (by decide)⟩

/-- C17: for every collection, an absent payload or a payload with no fields
makes API Create respond 400 'Body is empty', and makes API Update respond 400
'Body is empty' for every path id, whether or not it matches a record; the
collection is unchanged; and a payload with at least one field never gets the
'Body is empty' response. -/
theorem empty_body_rejected (rt : Runtime) (cs : List Character) :
    (∀ body : Option JSObject, body = none ∨ body = some [] →
      postCharacters rt cs body = (⟨400, .error "Body is empty"⟩, cs) ∧
      ∀ id, putCharacter rt cs id body = (⟨400, .error "Body is empty"⟩, cs)) ∧
    (∀ o : JSObject, o ≠ [] →
      (postCharacters rt cs (some o)).1 ≠ ⟨400, .error "Body is empty"⟩ ∧
      ∀ id, (putCharacter rt cs id (some o)).1 ≠ ⟨400, .error "Body is empty"⟩) := by
  constructor
  · intro body hbody
    have he : bodyIsEmpty body = true := by
      rcases hbody with rfl | rfl <;> rfl
    exact ⟨postCharacters_empty rt cs body he, fun id => putCharacter_empty rt cs id body he⟩
  · intro o ho
    constructor
    · rw [postCharacters_some rt cs o ho]
      split
      · simp
      · split <;> simp
    · intro id
      rw [putCharacter_some rt cs id o ho]
      split
      · simp
      · split
        · simp
        · split <;> simp

theorem empty_body_rejected_witness :
    ((some [] : Option JSObject) = none ∨ (some [] : Option JSObject) = some []) ∧
      postCharacters sampleRuntime seed (some []) = (⟨400, .error "Body is empty"⟩, seed) ∧
      putCharacter sampleRuntime seed (.fin 99) (some []) =
        (⟨400, .error "Body is empty"⟩, seed) :=
  ⟨Or.inr rfl,
    ((empty_body_rejected sampleRuntime seed).1 (some []) (Or.inr rfl)).1,
    ((empty_body_rejected sampleRuntime seed).1 (some []) (Or.inr rfl)).2 (.fin 99)⟩

/-- C18: every API operation is atomic with respect to errors: for every
collection and every Create, Update or Delete request, the response status is
201, 204, 400, 404 or (when the level test throws) 500; if it is 400 or 404, or
500, the collection afterwards is the collection before; so the collection
changes only on a 201 or 204 response. -/
theorem error_leaves_collection (rt : Runtime) (cs : List Character) (r : Request) :
    ((handle rt cs r).1.status = 201 ∨ (handle rt cs r).1.status = 204 ∨
      (handle rt cs r).1.status = 400 ∨ (handle rt cs r).1.status = 404 ∨
      (handle rt cs r).1.status = 500) ∧
    ((handle rt cs r).1.status = 400 ∨ (handle rt cs r).1.status = 404 ∨
      (handle rt cs r).1.status = 500 → (handle rt cs r).2 = cs) ∧
    ((handle rt cs r).2 ≠ cs →
      (handle rt cs r).1.status = 201 ∨ (handle rt cs r).1.status = 204) := by
  have key : ((handle rt cs r).1.status = 201 ∨ (handle rt cs r).1.status = 204) ∨
      (((handle rt cs r).1.status = 400 ∨ (handle rt cs r).1.status = 404 ∨
        (handle rt cs r).1.status = 500) ∧ (handle rt cs r).2 = cs) := by
    cases r with
    | create body =>
      by_cases hs : (postCharacters rt cs body).1.status = 201
      · exact Or.inl (Or.inl hs)
      · refine Or.inr ⟨?_, (postCharacters_rejected hs).2⟩
        rcases (postCharacters_rejected hs).1 with h | h
        · exact Or.inl h
        · exact Or.inr (Or.inr h)
    | update id body =>
      by_cases hs : (putCharacter rt cs id body).1.status = 204
      · exact Or.inl (Or.inr hs)
      · exact Or.inr (putCharacter_rejected hs)
    | delete id =>
      simp only [handle, deleteCharacter]
      split
      · exact Or.inr ⟨Or.inr (Or.inl rfl), rfl⟩
      · exact Or.inl (Or.inr rfl)
  refine ⟨?_, ?_, ?_⟩
  · rcases key with h | ⟨h, -⟩
    · rcases h with h | h
      · exact Or.inl h
      · exact Or.inr (Or.inl h)
    · exact Or.inr (Or.inr h)
  · intro herr
    rcases key with h | ⟨-, h⟩
    · rcases h with h | h <;> rcases herr with e | e | e <;> rw [h] at e <;>
        exact absurd e (by decide)
    · exact h
  · intro hne
    rcases key with h | ⟨-, h⟩
    · exact h
    · exact absurd h hne

theorem error_leaves_collection_witness :
    (handle sampleRuntime seed (.create (some shadowedLevel))).1.status = 500 ∧
      ((handle sampleRuntime seed (.create (some shadowedLevel))).1.status = 400 ∨
        (handle sampleRuntime seed (.create (some shadowedLevel))).1.status = 404 ∨
        (handle sampleRuntime seed (.create (some shadowedLevel))).1.status = 500) ∧
      (handle sampleRuntime seed (.create (some shadowedLevel))).2 = seed :=
  ⟨by decide, by decide,
    (error_leaves_collection sampleRuntime seed (.create (some shadowedLevel))).2.1 (by decide)⟩

/-- C19: name uniqueness is not preserved by API Update on its own. The
collection `sharedIdCollection` (ids 1, 1, 2; names a, b, c), which the form
path reaches from the seed, has pairwise distinct names and two records with id
1; `PUT /characters/1` with `{id: 1, name: "b", level: 10}` responds 204, and
in the resulting collection the records at positions 0 and 1 both have the name
"b": the duplicate test skipped the record (1, b) because its id is the path
id, although it is not the record being replaced. -/
theorem update_breaks_name_uniqueness :
    ReachableWithForms sampleRuntime sharedIdCollection ∧
      DistinctOn Character.name sharedIdCollection ∧
      ¬ DistinctOn Character.id sharedIdCollection ∧
      (putCharacter sampleRuntime sharedIdCollection (.fin 1) (some renameToB)).1 =
        ⟨204, .empty⟩ ∧
      (putCharacter sampleRuntime sharedIdCollection (.fin 1) (some renameToB)).2 =
        [ ⟨.number (.fin 1), .string "b", .undefined, .undefined, .number (.fin 10)⟩,
          ⟨.number (.fin 1), .string "b", .undefined, .undefined, .number (.fin 5)⟩,
          ⟨.number (.fin 2), .string "c", .undefined, .undefined, .number (.fin 5)⟩ ] ∧
      ¬ DistinctOn Character.name
        (putCharacter sampleRuntime sharedIdCollection (.fin 1) (some renameToB)).2 := by
  refine ⟨?_, ?_, ?_, by decide, by decide, ?_⟩
  · have h : sharedIdCollection =
        (postNew sampleRuntime (postNew sampleRuntime (postNew sampleRuntime
          (handle sampleRuntime (handle sampleRuntime (handle sampleRuntime seed
            (.delete (.fin 1))).2 (.delete (.fin 2))).2 (.delete (.fin 3))).2
          (some [("id", .string "1"), ("name", .string "a"), ("level", .string "5")])).2
          (some [("id", .string "1"), ("name", .string "b"), ("level", .string "5")])).2
          (some [("id", .string "2"), ("name", .string "c"), ("level", .string "5")])).2 := by
      decide
    rw [h]
    exact .form _ (.form _ (.form _ (.api _ (.api _ (.api _ .seed)))))
  · intro i j a b hij ha hb
    match i, j with
    | 0, 0 | 1, 1 | 2, 2 => exact absurd rfl hij
    | 0, 1 | 0, 2 | 1, 0 | 1, 2 | 2, 0 | 2, 1 =>
      simp [sharedIdCollection] at ha hb
      subst ha hb
      simp
    | _ + 3, _ | _, _ + 3 => simp [sharedIdCollection] at ha hb
  · intro h
    exact h 0 1 ⟨.number (.fin 1), .string "a", .undefined, .undefined, .number (.fin 5)⟩
      ⟨.number (.fin 1), .string "b", .undefined, .undefined, .number (.fin 5)⟩
      (by decide) (by decide) (by decide) rfl
  · intro h
    exact h 0 1 ⟨.number (.fin 1), .string "b", .undefined, .undefined, .number (.fin 10)⟩
      ⟨.number (.fin 1), .string "b", .undefined, .undefined, .number (.fin 5)⟩
      (by decide) (by decide) (by decide) rfl

end CharacterStore
